import Mathlib

/-! # VINS-Mono `estimator_node.cpp`: pairing, fast prediction and loop bookkeeping

A shallow embedding of `vins_estimator/src/estimator_node.cpp`.

* `std::queue<T>` is a `List T`: `front()` is the head, `back()` the last element,
  `push` appends at the end and `pop` removes the head.
* `double` is an arbitrary linearly ordered field `K` (the reals, or the rationals when a
  definition is evaluated); a `ros::Time` stamp and its `toSec()` value are the same element
  of `K`.
* Reading `front()` of an empty queue is undefined behaviour in C++; the functions that can
  reach such a read return `Option`, with `none` for that case.
* `int` is `Int`. The one conversion that can leave the 32-bit range on the inputs
  considered here, `int v = value + 0.5`, is checked and is `none` outside the range.
* The worker threads are embedded function by function: each block of `process`,
  `process_loop_detection` and `process_pose_graph` is a definition on the globals it
  touches, and the calls into the estimator and the loop-closure classes are inputs or
  recorded operations.
* The SQL audit sink of `predict` (`previous_*`, `stamp_*`, `raw_imu`, the global `dt` and
  the prepared statement) is write-only bookkeeping and is not part of the embedding.
-/

namespace VinsEstimatorNode

/-! ## Eigen value types -/

/-- `Eigen::Vector3d`. -/
@[ext]
structure Vec3 (K : Type) where
  x : K
  y : K
  z : K
deriving DecidableEq

/-- `Eigen::Quaterniond`, coefficients `w, x, y, z`. -/
@[ext]
structure Quat (K : Type) where
  w : K
  x : K
  y : K
  z : K
deriving DecidableEq

/-- `Eigen::Matrix3d`, stored as its three rows. -/
@[ext]
structure Mat3 (K : Type) where
  r0 : Vec3 K
  r1 : Vec3 K
  r2 : Vec3 K
deriving DecidableEq

namespace Vec3
variable {K : Type}

/-- `a + b` on `Vector3d`. -/
def add [Add K] (a b : Vec3 K) : Vec3 K := ⟨a.x + b.x, a.y + b.y, a.z + b.z⟩

/-- `a - b` on `Vector3d`. -/
def sub [Sub K] (a b : Vec3 K) : Vec3 K := ⟨a.x - b.x, a.y - b.y, a.z - b.z⟩

/-- `c * a` (and `a * c`) for a scalar `c`. -/
def smul [Mul K] (c : K) (a : Vec3 K) : Vec3 K := ⟨c * a.x, c * a.y, c * a.z⟩

/-- `a.cross(b)`. -/
def cross [Mul K] [Sub K] (a b : Vec3 K) : Vec3 K :=
  ⟨a.y * b.z - a.z * b.y, a.z * b.x - a.x * b.z, a.x * b.y - a.y * b.x⟩

/-- `a.dot(b)`. -/
def dot [Mul K] [Add K] (a b : Vec3 K) : K := a.x * b.x + a.y * b.y + a.z * b.z

/-- `Vector3d(0, 0, 0)`. -/
def zero [Zero K] : Vec3 K := ⟨0, 0, 0⟩

instance [Add K] : Add (Vec3 K) := ⟨add⟩
instance [Sub K] : Sub (Vec3 K) := ⟨sub⟩
instance [Mul K] : SMul K (Vec3 K) := ⟨smul⟩
instance [Zero K] : Zero (Vec3 K) := ⟨zero⟩

end Vec3

namespace Quat
variable {K : Type}

/-- `Quaterniond::Identity()`. -/
def identity [Zero K] [One K] : Quat K := ⟨1, 0, 0, 0⟩

/-- `q.vec()`: the imaginary part. -/
def vec (q : Quat K) : Vec3 K := ⟨q.x, q.y, q.z⟩

/-- `a * b` on quaternions (Eigen `quat_product`, the Hamilton product; no normalisation). -/
def mul [Mul K] [Add K] [Sub K] (a b : Quat K) : Quat K :=
  ⟨a.w * b.w - a.x * b.x - a.y * b.y - a.z * b.z,
   a.w * b.x + a.x * b.w + a.y * b.z - a.z * b.y,
   a.w * b.y + a.y * b.w + a.z * b.x - a.x * b.z,
   a.w * b.z + a.z * b.w + a.x * b.y - a.y * b.x⟩

/-- `q.squaredNorm()`. -/
def squaredNorm [Mul K] [Add K] (q : Quat K) : K :=
  q.w * q.w + q.x * q.x + q.y * q.y + q.z * q.z

/-- `q.conjugate()`. -/
def conjugate [Neg K] (q : Quat K) : Quat K := ⟨q.w, -q.x, -q.y, -q.z⟩

/-- `q.inverse()`: Eigen returns `conjugate / squaredNorm` when the squared norm is
positive and the zero quaternion otherwise. -/
def inverse [LinearOrderedField K] (q : Quat K) : Quat K :=
  let n2 := q.squaredNorm
  if 0 < n2 then ⟨q.w / n2, -q.x / n2, -q.y / n2, -q.z / n2⟩ else ⟨0, 0, 0, 0⟩

/-- `q * v` for a vector `v` (Eigen `_transformVector`):
`uv = q.vec().cross(v); uv += uv; return v + q.w() * uv + q.vec().cross(uv);`. -/
def transformVector [Mul K] [Add K] [Sub K] (q : Quat K) (v : Vec3 K) : Vec3 K :=
  let uv := q.vec.cross v
  let uv := uv + uv
  v + q.w • uv + q.vec.cross uv

end Quat

namespace Mat3
variable {K : Type}

/-- `Matrix3d::Identity()`. -/
def identity [Zero K] [One K] : Mat3 K := ⟨⟨1, 0, 0⟩, ⟨0, 1, 0⟩, ⟨0, 0, 1⟩⟩

/-- `m * v` for a vector `v`. -/
def mulVec [Mul K] [Add K] (m : Mat3 K) (v : Vec3 K) : Vec3 K :=
  ⟨m.r0.dot v, m.r1.dot v, m.r2.dot v⟩

/-- Row `r` times the matrix `n`. -/
def rowMul [Mul K] [Add K] (r : Vec3 K) (n : Mat3 K) : Vec3 K :=
  ⟨r.x * n.r0.x + r.y * n.r1.x + r.z * n.r2.x,
   r.x * n.r0.y + r.y * n.r1.y + r.z * n.r2.y,
   r.x * n.r0.z + r.y * n.r1.z + r.z * n.r2.z⟩

/-- `m * n` on matrices. -/
def mul [Mul K] [Add K] (m n : Mat3 K) : Mat3 K :=
  ⟨rowMul m.r0 n, rowMul m.r1 n, rowMul m.r2 n⟩

end Mat3

/-- Modelled from the spec: `Utility::deltaQ` lives in `utility/utility.h`, which is not
among the sources; the spec gives the increment quaternion as `δq(θ) = [1, θ/2]`. -/
def deltaQ {K : Type} [One K] [OfNat K 2] [Div K] (theta : Vec3 K) : Quat K :=
  ⟨1, theta.x / 2, theta.y / 2, theta.z / 2⟩

/-! ## Messages and queues -/

/-- `sensor_msgs::Imu`: header stamp, raw linear acceleration, raw angular velocity. -/
structure ImuMsg (K : Type) where
  stamp : K
  linear_acceleration : Vec3 K
  angular_velocity : Vec3 K
deriving DecidableEq

/-- `sensor_msgs::PointCloud`: header stamp, points and the first channel. -/
structure PointCloudMsg (K : Type) where
  stamp : K
  points : List (Vec3 K)
  channel0 : List K
deriving DecidableEq

/-- One element of the vector returned by `getMeasurements`. -/
abbrev Measurement (K : Type) := List (ImuMsg K) × PointCloudMsg K

/-- What a call of `getMeasurements` leaves behind: the returned vector and the two
global queues. -/
structure PairerResult (K : Type) where
  measurements : List (Measurement K)
  imu_buf : List (ImuMsg K)
  feature_buf : List (PointCloudMsg K)
deriving DecidableEq

section Pairer
variable {K : Type} [LinearOrder K]

/-- The inner loop of `getMeasurements`:
`while (imu_buf.front()->header.stamp <= img_msg->header.stamp)
   { IMUs.emplace_back(imu_buf.front()); imu_buf.pop(); }`.
The first argument is `img_msg`'s stamp, the second `imu_buf`, the third `IMUs`.
The loop condition reads `imu_buf.front()` without an emptiness test: `none`. -/
def collectIMUs (t : K) : List (ImuMsg K) → List (ImuMsg K) →
    Option (List (ImuMsg K) × List (ImuMsg K))
  | [], _ => none
  | m :: rest, IMUs =>
    if m.stamp ≤ t then collectIMUs t rest (IMUs ++ [m]) else some (IMUs, m :: rest)

/-- The `while (true)` loop of `getMeasurements`, on `feature_buf`, `imu_buf` and the
vector `measurements` built so far. Every iteration returns or pops `feature_buf`. -/
def getMeasurementsLoop : List (PointCloudMsg K) → List (ImuMsg K) → List (Measurement K) →
    Option (PairerResult K)
  | [], imu_buf, measurements => some ⟨measurements, imu_buf, []⟩
  | f :: fs, [], measurements => some ⟨measurements, [], f :: fs⟩
  | f :: fs, i :: is, measurements =>
    if ¬ ((i :: is).getLast (List.cons_ne_nil i is)).stamp > f.stamp then
      some ⟨measurements, i :: is, f :: fs⟩
    else if ¬ i.stamp < f.stamp then
      getMeasurementsLoop fs (i :: is) measurements
    else
      match collectIMUs f.stamp (i :: is) [] with
      | none => none
      | some (IMUs, imu_buf) => getMeasurementsLoop fs imu_buf (measurements ++ [(IMUs, f)])

/-- `getMeasurements()` on the global queues `imu_buf` and `feature_buf`. -/
def getMeasurements (imu_buf : List (ImuMsg K)) (feature_buf : List (PointCloudMsg K)) :
    Option (PairerResult K) :=
  getMeasurementsLoop feature_buf imu_buf []

end Pairer

/-! ## Fast predictor -/

/-- The globals that `predict` and `update` maintain. -/
@[ext]
structure PredictorState (K : Type) where
  latest_time : K
  tmp_P : Vec3 K
  tmp_Q : Quat K
  tmp_V : Vec3 K
  tmp_Ba : Vec3 K
  tmp_Bg : Vec3 K
  acc_0 : Vec3 K
  gyr_0 : Vec3 K
deriving DecidableEq

/-- The members of the global `estimator` that this file reads. The per-frame arrays are
indexed by the window slot. -/
structure Estimator (K : Type) where
  Ps : Nat → Vec3 K
  Rs : Nat → Mat3 K
  Vs : Nat → Vec3 K
  Bas : Nat → Vec3 K
  Bgs : Nat → Vec3 K
  acc_0 : Vec3 K
  gyr_0 : Vec3 K
  g : Vec3 K

/-- The globals that `update` reads and writes. -/
structure NodeState (K : Type) where
  estimator : Estimator K
  current_time : K
  imu_buf : List (ImuMsg K)
  relocalize_r : Mat3 K
  relocalize_t : Vec3 K
  pred : PredictorState K

section Predictor
variable {K : Type} [LinearOrderedField K]

/-- `predict(imu_msg)`, with `estimator.g` passed as `g`. The literal `0.5` is `1/2`. -/
def predict (g : Vec3 K) (s : PredictorState K) (imu_msg : ImuMsg K) : PredictorState K :=
  let t := imu_msg.stamp
  let dt := t - s.latest_time
  let latest_time := t
  let linear_acceleration := imu_msg.linear_acceleration
  let angular_velocity := imu_msg.angular_velocity
  let un_acc_0 :=
    s.tmp_Q.transformVector (s.acc_0 - s.tmp_Ba - s.tmp_Q.inverse.transformVector g)
  let un_gyr := (1 / 2 : K) • (s.gyr_0 + angular_velocity) - s.tmp_Bg
  let tmp_Q := s.tmp_Q.mul (deltaQ (dt • un_gyr))
  let un_acc_1 :=
    tmp_Q.transformVector (linear_acceleration - s.tmp_Ba - tmp_Q.inverse.transformVector g)
  let un_acc := (1 / 2 : K) • (un_acc_0 + un_acc_1)
  let tmp_P := s.tmp_P + dt • s.tmp_V + (1 / 2 * dt * dt) • un_acc
  let tmp_V := s.tmp_V + dt • un_acc
  { latest_time := latest_time
    tmp_P := tmp_P
    tmp_Q := tmp_Q
    tmp_V := tmp_V
    tmp_Ba := s.tmp_Ba
    tmp_Bg := s.tmp_Bg
    acc_0 := linear_acceleration
    gyr_0 := angular_velocity }

/-- The replay loop of `update`:
`for (...; !tmp_imu_buf.empty(); tmp_imu_buf.pop()) predict(tmp_imu_buf.front());`. -/
def updateLoop (g : Vec3 K) : List (ImuMsg K) → PredictorState K → PredictorState K
  | [], s => s
  | m :: tmp_imu_buf, s => updateLoop g tmp_imu_buf (predict g s m)

/-- The seven assignments at the head of `update`, before the replay loop. `quatOfMat`
is Eigen's conversion of a rotation matrix to a quaternion (the assignment of a
`Matrix3d` product to `tmp_Q`); `WINDOW_SIZE` comes from `parameters.h`. -/
def seed (WINDOW_SIZE : Nat) (quatOfMat : Mat3 K → Quat K) (s : NodeState K) :
    PredictorState K :=
  { latest_time := s.current_time
    tmp_P := s.relocalize_r.mulVec (s.estimator.Ps WINDOW_SIZE) + s.relocalize_t
    tmp_Q := quatOfMat (s.relocalize_r.mul (s.estimator.Rs WINDOW_SIZE))
    tmp_V := s.estimator.Vs WINDOW_SIZE
    tmp_Ba := s.estimator.Bas WINDOW_SIZE
    tmp_Bg := s.estimator.Bgs WINDOW_SIZE
    acc_0 := s.estimator.acc_0
    gyr_0 := s.estimator.gyr_0 }

/-- `update()`: reseed the predictor from the estimator, then replay a copy of
`imu_buf` through `predict`. -/
def update (WINDOW_SIZE : Nat) (quatOfMat : Mat3 K → Quat K) (s : NodeState K) :
    NodeState K :=
  let seeded := seed WINDOW_SIZE quatOfMat s
  let tmp_imu_buf := s.imu_buf
  { s with pred := updateLoop s.estimator.g tmp_imu_buf seeded }

/-- The constant-acceleration input of the integration test: sample `k` (counted from 0)
has stamp `t0 + (k + 1) * dt`, acceleration `a` and zero angular rate. -/
def constAccSamples (t0 dt : K) (a : Vec3 K) (N : Nat) : List (ImuMsg K) :=
  (List.range N).map fun k => ⟨t0 + ((k : K) + 1) * dt, a, 0⟩

/-- Predictor state at the start of the integration test: identity orientation, zero
biases, zero previous angular rate, previous acceleration `a`. -/
def constAccInit (t0 : K) (p0 v0 a : Vec3 K) : PredictorState K :=
  { latest_time := t0
    tmp_P := p0
    tmp_Q := Quat.identity
    tmp_V := v0
    tmp_Ba := 0
    tmp_Bg := 0
    acc_0 := a
    gyr_0 := 0 }

end Predictor


/-- Test fixture: an IMU message at stamp `t` with zero readings. -/
def imuAt {K : Type} [Zero K] (t : K) : ImuMsg K := ⟨t, 0, 0⟩

/-- Test fixture: an empty feature frame at stamp `t`. -/
def frameAt {K : Type} (t : K) : PointCloudMsg K := ⟨t, [], []⟩

/-- Predictor state used to evaluate `predict`: at rest at the origin at time 0, identity
orientation, zero biases, zero previous readings. -/
def restState {K : Type} [Zero K] [One K] : PredictorState K :=
  { latest_time := 0
    tmp_P := 0
    tmp_Q := Quat.identity
    tmp_V := 0
    tmp_Ba := 0
    tmp_Bg := 0
    acc_0 := 0
    gyr_0 := 0 }

/-- IMU sample used to evaluate `predict`: stamp 1, zero acceleration, angular rate
`(4, 0, 0)`. -/
def turnSample : ImuMsg ℚ := ⟨1, 0, ⟨4, 0, 0⟩⟩

/-- Gravity vector used to evaluate `predict`. -/
def gravityY : Vec3 ℚ := ⟨0, 1, 0⟩

/-- Node state used to evaluate `update`: every window slot of the estimator holds
position `(1, 2, 3)`, the identity rotation and velocity `(4, 5, 6)`; identity
correction, empty `imu_buf`, and a predictor left over from earlier integration. -/
def idleNode : NodeState ℚ :=
  { estimator :=
      { Ps := fun _ => ⟨1, 2, 3⟩
        Rs := fun _ => Mat3.identity
        Vs := fun _ => ⟨4, 5, 6⟩
        Bas := fun _ => 0
        Bgs := fun _ => 0
        acc_0 := ⟨0, 0, 1⟩
        gyr_0 := 0
        g := gravityY }
    current_time := 7
    imu_buf := []
    relocalize_r := Mat3.identity
    relocalize_t := 0
    pred := predict gravityY restState turnSample }

section PairerSpec
variable {K : Type} [LinearOrder K]

/-- What `getMeasurements` guarantees for one returned tuple: the batch starts with a
sample strictly before the frame and holds only samples not after the frame. -/
def BatchOk (p : Measurement K) : Prop :=
  (∃ first, p.1.head? = some first ∧ first.stamp < p.2.stamp) ∧
    ∀ m ∈ p.1, m.stamp ≤ p.2.stamp

end PairerSpec

/-- Predictor state that has never been seeded: `latest_time = -1`, moving with velocity
`(1, 0, 0)`, everything else as in `restState`. -/
def unseededState : PredictorState ℚ := { (restState : PredictorState ℚ) with
  latest_time := -1
  tmp_V := ⟨1, 0, 0⟩ }

/-- Predictor state whose last integrated sample was at time 2, moving with velocity
`(1, 0, 0)`, everything else as in `restState`. -/
def aheadState : PredictorState ℚ := { (restState : PredictorState ℚ) with
  latest_time := 2
  tmp_V := ⟨1, 0, 0⟩ }

/-! ## Feeding the estimator -/

/-- The arguments of one call `estimator.processIMU(dt, linear_acceleration,
angular_velocity)`. -/
structure ProcessIMUCall (K : Type) where
  dt : K
  linear_acceleration : Vec3 K
  angular_velocity : Vec3 K
deriving DecidableEq

section SendImu
variable {K : Type} [LinearOrderedField K]

/-- `send_imu(imu_msg)`: returns the new value of the global `current_time` and the
arguments handed to `estimator.processIMU`. -/
def send_imu (current_time : K) (imu_msg : ImuMsg K) : K × ProcessIMUCall K :=
  let t := imu_msg.stamp
  let current_time := if current_time < 0 then t else current_time
  let dt := t - current_time
  let current_time := t
  let ba : Vec3 K := ⟨0, 0, 0⟩
  let bg : Vec3 K := ⟨0, 0, 0⟩
  let dx := imu_msg.linear_acceleration.x - ba.x
  let dy := imu_msg.linear_acceleration.y - ba.y
  let dz := imu_msg.linear_acceleration.z - ba.z
  let rx := imu_msg.angular_velocity.x - bg.x
  let ry := imu_msg.angular_velocity.y - bg.y
  let rz := imu_msg.angular_velocity.z - bg.z
  (current_time, ⟨dt, ⟨dx, dy, dz⟩, ⟨rx, ry, rz⟩⟩)

/-- The loop `for (auto &imu_msg : measurement.first) send_imu(imu_msg);` of `process`:
the final `current_time` and the `processIMU` calls in order. -/
def sendImus (current_time : K) : List (ImuMsg K) → K × List (ProcessIMUCall K)
  | [] => (current_time, [])
  | imu_msg :: rest =>
    let r := send_imu current_time imu_msg
    let rs := sendImus r.1 rest
    (rs.1, r.2 :: rs.2)

end SendImu

/-! ## Keyframe image selection -/

section ImageBuf
variable {K : Type} [LinearOrder K] {Img : Type}

/-- The loop `while(!image_buf.empty() && image_buf.front().second < t) image_buf.pop();`
of `process`, with `t = estimator.Headers[WINDOW_SIZE - 2].stamp.toSec()`. An element of
`image_buf` is `(image, stamp)`; `Img` stands for `cv::Mat`. -/
def dropOlderImages (t : K) : List (Img × K) → List (Img × K)
  | [] => []
  | im :: rest => if im.2 < t then dropOlderImages t rest else im :: rest

/-- Lines 1028-1044 of `process`: drop the older images, then read
`image_buf.front().first` for the keyframe. The read has no emptiness test, so an empty
queue after the loop is `none`. Returns the keyframe image and `image_buf` afterwards
(the image read stays queued). -/
def pullKeyFrameImage (t : K) (image_buf : List (Img × K)) : Option (Img × List (Img × K)) :=
  match dropOlderImages t image_buf with
  | [] => none
  | im :: rest => some (im.1, im :: rest)

end ImageBuf

/-! ## Feature identifiers -/

section FeatureIds
variable {K : Type} [LinearOrderedField K] [FloorRing K]

/-- Conversion of a `double` to `int`, as in `int v = y;`: truncation toward zero. A
value whose truncation is outside the range of a 32-bit `int` is undefined behaviour:
`none`. -/
def toInt (y : K) : Option Int :=
  let v : Int := if 0 ≤ y then ⌊y⌋ else ⌈y⌉
  if -2147483648 ≤ v ∧ v ≤ 2147483647 then some v else none

/-- Lines 989-991 of `process`: `int v = value + 0.5; int feature_id = v / NUM_OF_CAM;
int camera_id = v % NUM_OF_CAM;` with C++ truncating division. `NUM_OF_CAM` comes from
`parameters.h`. Division by zero and `INT_MIN / -1` are undefined behaviour: `none`. -/
def decodeFeatureId (NUM_OF_CAM : Int) (value : K) : Option (Int × Int) :=
  match toInt (value + 1 / 2) with
  | none => none
  | some v =>
    if NUM_OF_CAM = 0 ∨ (v = -2147483648 ∧ NUM_OF_CAM = -1) then none
    else some (v.tdiv NUM_OF_CAM, v.tmod NUM_OF_CAM)

/-- The loop of `process` that fills `map<int, vector<pair<int, Vector3d>>> image`
(lines 987-997), on the points still to visit, the values of `channels[0]` at the same
indices and the map built so far. The map is a function from `feature_id` to the vector
stored there (empty when the key is absent). Reading past the end of `channels[0]` and a
failed `ROS_ASSERT(z == 1)` are `none`. -/
def buildImage (NUM_OF_CAM : Int) :
    List (Vec3 K) → List K → (Int → List (Int × Vec3 K)) → Option (Int → List (Int × Vec3 K))
  | [], _, image => some image
  | _ :: _, [], _ => none
  | p :: points, value :: values, image =>
    match decodeFeatureId NUM_OF_CAM value with
    | none => none
    | some (feature_id, camera_id) =>
      if p.z = 1 then
        buildImage NUM_OF_CAM points values
          (Function.update image feature_id (image feature_id ++ [(camera_id, p)]))
      else none

end FeatureIds

/-! ## Loop closure bookkeeping -/

/-- `RetriveData`, the loop-closure handshake record. -/
structure RetriveData (K : Type) where
  cur_index : Int
  header : K
  P_old : Vec3 K
  R_old : Mat3 K
  relative_pose : Bool
  relative_t : Vec3 K
  relative_q : Quat K
  relative_yaw : K
  relocalized : Bool
  measurements : List (K × K)
  features_ids : List Int
  loop_pose : List K
deriving DecidableEq

/-- The calls this file makes on keyframes and on the keyframe database that change a
loop annotation. Their bodies live in the `loop-closure` sources; the embedding records
which call is made on which keyframe index. -/
inductive KeyFrameOp (K : Type) where
  /-- `getKeyframe(index)->removeLoop()`. -/
  | removeLoop (index : Int)
  /-- `getKeyframe(index)->updateLoopConnection(relative_t, relative_q, relative_yaw)`. -/
  | updateLoopConnection (index : Int) (relative_t : Vec3 K) (relative_q : Quat K)
      (relative_yaw : K)
  /-- `cur_kf->detectLoop(old_index)` on the keyframe `index`. -/
  | detectLoop (index : Int) (old_index : Int)
  /-- `old_kf->is_looped = 1`. -/
  | markLooped (old_index : Int)
  /-- `keyframe_database.addLoop(old_index)`. -/
  | addLoop (old_index : Int)
  /-- `keyframe_database.updateVisualization()`. -/
  | updateVisualization
deriving DecidableEq

/-- The loop-closure globals of the node. -/
structure LoopState (K : Type) where
  retrive_data_vector : List (RetriveData K)
  retrive_data_buf : List (RetriveData K)
  optimize_posegraph_buf : List Int
  keyframe_ops : List (KeyFrameOp K)
  relocalize_r : Mat3 K
  relocalize_t : Vec3 K
  global_frame_cnt : Int
deriving DecidableEq

/-- What the loop-closure collaborators return for the keyframe being processed by
`process_loop_detection`: the result of `startLoopClosure`, of the database lookup of
`old_index`, of `getPose` and of `findConnectionWithOldFrame`. -/
structure LoopDetection (K : Type) where
  loop_succ : Bool
  old_index : Int
  old_kf_found : Bool
  header : K
  T_w_i_old : Vec3 K
  R_w_i_old : Mat3 K
  measurements_old_norm : List (K × K)
  features_id_matched : List Int
  PnP_T_old : Vec3 K
  PnP_Q_old : Quat K

section LoopClosure
variable {K : Type} [LinearOrderedField K]

/-- Lines 1051-1071 of `process` ("update loop info"), with `headers0` standing for
`estimator.Headers[0].stamp.toSec()` and `retrive_data_vector` for the estimator's vector.
The test `relative_t.norm() > 20.0` is written on the squared norm, `|t|^2 > 400`. -/
def updateLoopInfo (headers0 : K) (s : LoopState K) : LoopState K :=
  match s.retrive_data_vector with
  | [] => s
  | r :: _ =>
    if r.relative_pose then
      if headers0 = r.header then
        if |r.relative_yaw| > 30 ∨ r.relative_t.dot r.relative_t > 400 then
          { s with keyframe_ops := s.keyframe_ops ++ [KeyFrameOp.removeLoop r.cur_index] }
        else
          { s with
            keyframe_ops := s.keyframe_ops ++
              [KeyFrameOp.updateLoopConnection r.cur_index r.relative_t r.relative_q
                r.relative_yaw]
            optimize_posegraph_buf := s.optimize_posegraph_buf ++ [r.cur_index] }
      else s
    else s

/-- Lines 1079-1084 of `process`: under `m_loop_drift`,
`if (estimator.relocalize) { relocalize_t = estimator.relocalize_t;
relocalize_r = estimator.relocalize_r; }`. The three arguments are the estimator's
members. -/
def adoptRelocalization (relocalize : Bool) (est_relocalize_r : Mat3 K)
    (est_relocalize_t : Vec3 K) (s : LoopState K) : LoopState K :=
  if relocalize then
    { s with relocalize_t := est_relocalize_t, relocalize_r := est_relocalize_r }
  else s

/-- The drain loop of `process_pose_graph`:
`while (!optimize_posegraph_buf.empty()) { index = front(); pop(); }`. -/
def drainPosegraphBuf : List Int → Int → Int
  | [], index => index
  | i :: rest, _ => drainPosegraphBuf rest i

/-- One round of `process_pose_graph`. `optimize4DoFLoopPoseGraph` is the database's
optimizer: from the index and the initial `(correct_t, correct_r) = (0, I)` it yields the
new pair. -/
def process_pose_graph (optimize4DoFLoopPoseGraph : Int → Vec3 K → Mat3 K → Vec3 K × Mat3 K)
    (s : LoopState K) : LoopState K :=
  let index := drainPosegraphBuf s.optimize_posegraph_buf (-1)
  let s := { s with optimize_posegraph_buf := [] }
  if index ≠ -1 then
    let correct := optimize4DoFLoopPoseGraph index 0 Mat3.identity
    { s with
      relocalize_r := correct.2
      relocalize_t := correct.1
      keyframe_ops := s.keyframe_ops ++ [KeyFrameOp.updateVisualization] }
  else s

/-- The record built at lines 813-829 of `process_loop_detection`. `blank` is a
default-constructed `RetriveData`: the members not assigned there keep its values. -/
def buildRetriveData (blank : RetriveData K) (cur_index : Int) (d : LoopDetection K) :
    RetriveData K :=
  { blank with
    cur_index := cur_index
    header := d.header
    P_old := d.T_w_i_old
    R_old := d.R_w_i_old
    relative_pose := false
    relocalized := false
    measurements := d.measurements_old_norm
    features_ids := d.features_id_matched
    loop_pose := [d.PnP_T_old.x, d.PnP_T_old.y, d.PnP_T_old.z, d.PnP_Q_old.x, d.PnP_Q_old.y,
      d.PnP_Q_old.z, d.PnP_Q_old.w] }

/-- The body of `process_loop_detection` for one keyframe taken from `keyframe_buf`
(lines 767-906). `int` is `Int`; `MIN_LOOP_NUM` comes from `parameters.h`. A candidate
missing from the database runs into `ROS_BREAK()` and `old_index == -1` into the
`assert`: `none`. -/
def processLoopDetection (MIN_LOOP_NUM : Int) (blank : RetriveData K) (d : LoopDetection K)
    (s : LoopState K) : Option (LoopState K) :=
  let cur_index := s.global_frame_cnt
  let detected : Option (LoopState K) :=
    if d.loop_succ then
      if ¬ d.old_kf_found then none
      else if d.old_index = -1 then none
      else if (d.measurements_old_norm.length : Int) > MIN_LOOP_NUM ∧
          s.global_frame_cnt - d.old_index > 35 ∧ d.old_index > 30 then
        some { s with
          retrive_data_buf := s.retrive_data_buf ++ [buildRetriveData blank cur_index d]
          keyframe_ops := s.keyframe_ops ++
            [KeyFrameOp.detectLoop cur_index d.old_index, KeyFrameOp.markLooped d.old_index,
              KeyFrameOp.addLoop d.old_index] }
      else some s
    else some s
  detected.map fun s => { s with global_frame_cnt := s.global_frame_cnt + 1 }

end LoopClosure

/-- A loop candidate whose relative pose is ready: keyframe 7, header time 5, relative
translation `(2, 0, 0)` and the given relative yaw (degrees). -/
def loopCandidate (relative_yaw : ℚ) : RetriveData ℚ :=
  { cur_index := 7
    header := 5
    P_old := 0
    R_old := Mat3.identity
    relative_pose := true
    relative_t := ⟨2, 0, 0⟩
    relative_q := Quat.identity
    relative_yaw := relative_yaw
    relocalized := false
    measurements := []
    features_ids := []
    loop_pose := [] }

/-- Loop-closure globals with one candidate at the head of `retrive_data_vector`, empty
queues, identity correction and 100 keyframes seen. -/
def loopStateWith (relative_yaw : ℚ) : LoopState ℚ :=
  { retrive_data_vector := [loopCandidate relative_yaw]
    retrive_data_buf := []
    optimize_posegraph_buf := []
    keyframe_ops := []
    relocalize_r := Mat3.identity
    relocalize_t := 0
    global_frame_cnt := 100 }

/-- A successful detection against keyframe 40 with the given number of matched
normalized measurements. -/
def detectionOf (matched : Nat) : LoopDetection ℚ :=
  { loop_succ := true
    old_index := 40
    old_kf_found := true
    header := 9
    T_w_i_old := ⟨1, 2, 3⟩
    R_w_i_old := Mat3.identity
    measurements_old_norm := List.replicate matched (0, 0)
    features_id_matched := List.replicate matched 0
    PnP_T_old := ⟨1, 2, 3⟩
    PnP_Q_old := Quat.identity }

/-! ## Lock skeleton of the threads -/

/-- The mutexes declared in `estimator_node.cpp`. -/
inductive Mutex where
  | m_posegraph_buf
  | m_buf
  | m_state
  | i_buf
  | m_loop_drift
  | m_keyframedatabase_resample
  | m_update_visualization
  | m_keyframe_buf
  | m_retrive_data_buf
deriving DecidableEq

/-- A lock or unlock call as it happens at run time. -/
inductive LockEvent where
  | acquire (m : Mutex)
  | release (m : Mutex)
deriving DecidableEq

/-- The lock skeleton of a function body: its `lock`/`unlock` calls (a `lock_guard` or
`unique_lock` is a `lock` with the `unlock` at the end of its scope) in program order,
with the branches and loops around them; all other statements are dropped. The functions
called from this file (`predict`, `update`, `getMeasurements`, `send_imu` and the
estimator, database and publisher calls) take none of these mutexes. -/
inductive Sync where
  | skip
  | lock (m : Mutex)
  | unlock (m : Mutex)
  | seq (a b : Sync)
  | branch (a b : Sync)
  | loop (body : Sync)

/-- Statements in sequence. -/
def Sync.block : List Sync → Sync
  | [] => Sync.skip
  | a :: rest => Sync.seq a (Sync.block rest)

/-- `if (...) body`. -/
def Sync.when (body : Sync) : Sync := Sync.branch body Sync.skip

/-- The executions of a skeleton: the sequences of lock events it can produce. An `if`
may take either side, a loop runs its body any number of times. -/
inductive Sync.Runs : Sync → List LockEvent → Prop where
  | skip : Sync.Runs Sync.skip []
  | lock (m : Mutex) : Sync.Runs (Sync.lock m) [LockEvent.acquire m]
  | unlock (m : Mutex) : Sync.Runs (Sync.unlock m) [LockEvent.release m]
  | seq {a b : Sync} {ta tb : List LockEvent} :
      Sync.Runs a ta → Sync.Runs b tb → Sync.Runs (Sync.seq a b) (ta ++ tb)
  | left {a b : Sync} {t : List LockEvent} : Sync.Runs a t → Sync.Runs (Sync.branch a b) t
  | right {a b : Sync} {t : List LockEvent} : Sync.Runs b t → Sync.Runs (Sync.branch a b) t
  | done {body : Sync} : Sync.Runs (Sync.loop body) []
  | again {body : Sync} {t ts : List LockEvent} :
      Sync.Runs body t → Sync.Runs (Sync.loop body) ts → Sync.Runs (Sync.loop body) (t ++ ts)

/-- The lock order of the spec, as a test on one acquisition: `m` may be taken while
`held` are held unless `m` is `m_buf` and `m_state` is held, or `m_posegraph_buf` or
`m_loop_drift` is held, or `m` is `m_keyframedatabase_resample` and
`m_update_visualization` is held. -/
def lockAllowed (held : List Mutex) (m : Mutex) : Bool :=
  !(m == Mutex.m_buf && held.contains Mutex.m_state) &&
  !(held.contains Mutex.m_posegraph_buf) &&
  !(held.contains Mutex.m_loop_drift) &&
  !(m == Mutex.m_keyframedatabase_resample && held.contains Mutex.m_update_visualization)

/-- Replays a sequence of lock events from the set `held`: the mutexes held at the end,
or `none` when some acquisition breaks the lock order. -/
def replayLocks : List Mutex → List LockEvent → Option (List Mutex)
  | held, [] => some held
  | held, LockEvent.acquire m :: rest =>
    if lockAllowed held m then replayLocks (m :: held) rest else none
  | held, LockEvent.release m :: rest => replayLocks (held.erase m) rest

/-- Checks a skeleton from the set `held`: `none` when an acquisition can break the lock
order, when the two sides of a branch leave different mutexes held, or when a loop body
does not leave the mutexes it started with. -/
def checkLocks : Sync → List Mutex → Option (List Mutex)
  | Sync.skip, held => some held
  | Sync.lock m, held => if lockAllowed held m then some (m :: held) else none
  | Sync.unlock m, held => some (held.erase m)
  | Sync.seq a b, held =>
    match checkLocks a held with
    | none => none
    | some held1 => checkLocks b held1
  | Sync.branch a b, held =>
    match checkLocks a held, checkLocks b held with
    | some held1, some held2 => if held1 = held2 then some held1 else none
    | _, _ => none
  | Sync.loop body, held =>
    match checkLocks body held with
    | some held1 => if held1 = held then some held else none
    | none => none

/-- Lock skeleton of `imu_callback`. -/
def imu_callback_locks : Sync :=
  Sync.block [Sync.lock Mutex.m_buf, Sync.unlock Mutex.m_buf,
    Sync.lock Mutex.m_state, Sync.unlock Mutex.m_state]

/-- Lock skeleton of `raw_image_callback`. -/
def raw_image_callback_locks : Sync :=
  Sync.when (Sync.block [Sync.lock Mutex.i_buf, Sync.unlock Mutex.i_buf])

/-- Lock skeleton of `feature_callback`. -/
def feature_callback_locks : Sync :=
  Sync.block [Sync.lock Mutex.m_buf, Sync.unlock Mutex.m_buf]

/-- Lock skeleton of the loop-closure part of `process` for one measurement
(`if(LOOP_CLOSURE) ...`, lines 1002-1073). -/
def process_loop_closure_locks : Sync :=
  Sync.when (Sync.block
    [Sync.lock Mutex.m_retrive_data_buf, Sync.unlock Mutex.m_retrive_data_buf,
      Sync.when (Sync.block
        [Sync.lock Mutex.i_buf, Sync.unlock Mutex.i_buf,
          Sync.lock Mutex.m_keyframe_buf, Sync.unlock Mutex.m_keyframe_buf,
          Sync.when (Sync.when (Sync.branch Sync.skip
            (Sync.block [Sync.lock Mutex.m_posegraph_buf,
              Sync.unlock Mutex.m_posegraph_buf])))])])

/-- Lock skeleton of the thread `process`. `con.wait` releases `m_buf` while waiting and
holds it again whenever it tests its predicate and when it returns. -/
def process_locks : Sync :=
  Sync.loop (Sync.block
    [Sync.lock Mutex.m_buf,
      Sync.loop (Sync.block [Sync.unlock Mutex.m_buf, Sync.lock Mutex.m_buf]),
      Sync.unlock Mutex.m_buf,
      Sync.loop (Sync.block
        [process_loop_closure_locks,
          Sync.lock Mutex.m_loop_drift, Sync.unlock Mutex.m_loop_drift]),
      Sync.lock Mutex.m_buf, Sync.lock Mutex.m_state,
      Sync.unlock Mutex.m_state, Sync.unlock Mutex.m_buf])

/-- Lock skeleton of the thread `process_loop_detection`. -/
def process_loop_detection_locks : Sync :=
  Sync.loop (Sync.block
    [Sync.lock Mutex.m_keyframe_buf, Sync.unlock Mutex.m_keyframe_buf,
      Sync.when (Sync.block
        [Sync.lock Mutex.m_keyframedatabase_resample,
          Sync.unlock Mutex.m_keyframedatabase_resample,
          Sync.when (Sync.when (Sync.block
            [Sync.lock Mutex.m_retrive_data_buf, Sync.unlock Mutex.m_retrive_data_buf,
              Sync.lock Mutex.m_update_visualization,
              Sync.unlock Mutex.m_update_visualization])),
          Sync.when (Sync.block
            [Sync.lock Mutex.m_keyframedatabase_resample,
              Sync.unlock Mutex.m_keyframedatabase_resample])])])

/-- Lock skeleton of the thread `process_pose_graph`. -/
def process_pose_graph_locks : Sync :=
  Sync.loop (Sync.block
    [Sync.lock Mutex.m_posegraph_buf, Sync.unlock Mutex.m_posegraph_buf,
      Sync.when (Sync.block
        [Sync.lock Mutex.m_loop_drift, Sync.unlock Mutex.m_loop_drift,
          Sync.lock Mutex.m_update_visualization,
          Sync.unlock Mutex.m_update_visualization])])

/-- The code run by the threads of the node: the three subscriber callbacks (each may run
any number of times) and the three worker threads. -/
def threadLocks : List Sync :=
  [Sync.loop imu_callback_locks, Sync.loop raw_image_callback_locks,
    Sync.loop feature_callback_locks, process_locks, process_loop_detection_locks,
    process_pose_graph_locks]

/-! ## The IMU callback -/

section ImuCallback
variable {K : Type} [LinearOrderedField K]

/-- First half of `imu_callback`, under `m_buf`: `imu_buf.push(imu_msg)`. -/
def imu_callback_push (n : NodeState K) (imu_msg : ImuMsg K) : NodeState K :=
  { n with imu_buf := n.imu_buf ++ [imu_msg] }

/-- Second half of `imu_callback`, under `m_state`: `predict(imu_msg)` (the publication
that follows changes no global). -/
def imu_callback_predict (n : NodeState K) (imu_msg : ImuMsg K) : NodeState K :=
  { n with pred := predict n.estimator.g n.pred imu_msg }

/-- `imu_callback(imu_msg)` run without interruption. -/
def imu_callback (n : NodeState K) (imu_msg : ImuMsg K) : NodeState K :=
  imu_callback_predict (imu_callback_push n imu_msg) imu_msg

end ImuCallback

/-! ## Theorems: the measurement pairer -/

section PairerLemmas
variable {K : Type} [LinearOrder K]

theorem collectIMUs_eq (t : K) (l IMUs : List (ImuMsg K)) :
    collectIMUs t l IMUs =
      if l.dropWhile (fun m => decide (m.stamp ≤ t)) = [] then none
      else some (IMUs ++ l.takeWhile (fun m => decide (m.stamp ≤ t)),
                 l.dropWhile (fun m => decide (m.stamp ≤ t))) := by
  induction l generalizing IMUs with
  | nil => simp [collectIMUs]
  | cons m rest ih =>
    by_cases h : m.stamp ≤ t
    · simp [collectIMUs, h, ih, List.takeWhile_cons, List.dropWhile_cons]
    · simp [collectIMUs, h, List.takeWhile_cons, List.dropWhile_cons]

theorem dropWhile_ne_nil_of_getLast (t : K) (l : List (ImuMsg K)) (hne : l ≠ [])
    (h : t < (l.getLast hne).stamp) :
    l.dropWhile (fun m => decide (m.stamp ≤ t)) ≠ [] := by
  intro hnil
  have := (List.dropWhile_eq_nil_iff.mp hnil) _ (List.getLast_mem hne)
  simp only [decide_eq_true_eq] at this
  exact absurd h (not_lt.mpr this)

theorem getMeasurementsLoop_acc (fs : List (PointCloudMsg K)) (imu_buf : List (ImuMsg K))
    (acc : List (Measurement K)) :
    getMeasurementsLoop fs imu_buf acc =
      (getMeasurementsLoop fs imu_buf []).map
        (fun r => ⟨acc ++ r.measurements, r.imu_buf, r.feature_buf⟩) := by
  induction fs generalizing imu_buf acc with
  | nil => simp [getMeasurementsLoop]
  | cons f fs ih =>
    cases imu_buf with
    | nil => simp [getMeasurementsLoop]
    | cons i is =>
      by_cases h1 : ((i :: is).getLast (List.cons_ne_nil i is)).stamp > f.stamp
      · by_cases h2 : i.stamp < f.stamp
        · simp only [getMeasurementsLoop, h1, h2, not_true_eq_false, if_false]
          cases hc : collectIMUs f.stamp (i :: is) [] with
          | none => simp
          | some p =>
            obtain ⟨IMUs, rest⟩ := p
            simp only [List.nil_append]
            rw [ih rest (acc ++ [(IMUs, f)]), ih rest [(IMUs, f)]]
            cases getMeasurementsLoop fs rest [] <;> simp
        · simp only [getMeasurementsLoop, h1, h2, not_true_eq_false, not_false_eq_true,
            if_false, if_true]
          exact ih _ _
      · simp [getMeasurementsLoop, h1]

theorem getMeasurementsLoop_wait (f : PointCloudMsg K) (fs : List (PointCloudMsg K))
    (i : ImuMsg K) (is : List (ImuMsg K)) (acc : List (Measurement K))
    (h1 : ¬ ((i :: is).getLast (List.cons_ne_nil i is)).stamp > f.stamp) :
    getMeasurementsLoop (f :: fs) (i :: is) acc = some ⟨acc, i :: is, f :: fs⟩ := by
  simp [getMeasurementsLoop, h1]

theorem getMeasurementsLoop_throw (f : PointCloudMsg K) (fs : List (PointCloudMsg K))
    (i : ImuMsg K) (is : List (ImuMsg K)) (acc : List (Measurement K))
    (h1 : ((i :: is).getLast (List.cons_ne_nil i is)).stamp > f.stamp)
    (h2 : ¬ i.stamp < f.stamp) :
    getMeasurementsLoop (f :: fs) (i :: is) acc = getMeasurementsLoop fs (i :: is) acc := by
  simp only [getMeasurementsLoop, h1, h2, not_true_eq_false, not_false_eq_true, if_false,
    if_true]

theorem getMeasurementsLoop_pair (f : PointCloudMsg K) (fs : List (PointCloudMsg K))
    (i : ImuMsg K) (is : List (ImuMsg K)) (acc : List (Measurement K))
    (h1 : ((i :: is).getLast (List.cons_ne_nil i is)).stamp > f.stamp)
    (h2 : i.stamp < f.stamp) :
    getMeasurementsLoop (f :: fs) (i :: is) acc =
      getMeasurementsLoop fs ((i :: is).dropWhile (fun m => decide (m.stamp ≤ f.stamp)))
        (acc ++ [((i :: is).takeWhile (fun m => decide (m.stamp ≤ f.stamp)), f)]) := by
  have hd := dropWhile_ne_nil_of_getLast f.stamp (i :: is) (List.cons_ne_nil i is) h1
  simp only [getMeasurementsLoop, h1, h2, not_true_eq_false, if_false]
  rw [collectIMUs_eq, if_neg hd]
  simp

theorem getMeasurementsLoop_spec (fs : List (PointCloudMsg K)) (imu_buf : List (ImuMsg K))
    (acc : List (Measurement K)) :
    ∃ ms imu_rest feat_rest,
      getMeasurementsLoop fs imu_buf acc = some ⟨acc ++ ms, imu_rest, feat_rest⟩ ∧
      (imu_buf ≠ [] → imu_rest ≠ []) ∧
      (∀ p ∈ ms, BatchOk p) ∧
      (ms.map Prod.snd ++ feat_rest).Sublist fs := by
  induction fs generalizing imu_buf acc with
  | nil => exact ⟨[], imu_buf, [], by simp [getMeasurementsLoop], id, by simp, by simp⟩
  | cons f fs ih =>
    cases imu_buf with
    | nil => exact ⟨[], [], f :: fs, by simp [getMeasurementsLoop], id, by simp, by simp⟩
    | cons i is =>
      by_cases h1 : ((i :: is).getLast (List.cons_ne_nil i is)).stamp > f.stamp
      · by_cases h2 : i.stamp < f.stamp
        · have hd := dropWhile_ne_nil_of_getLast f.stamp (i :: is) (List.cons_ne_nil i is) h1
          obtain ⟨ms, ir, fr, he, hn, hb, hs⟩ :=
            ih ((i :: is).dropWhile (fun m => decide (m.stamp ≤ f.stamp)))
              (acc ++ [((i :: is).takeWhile (fun m => decide (m.stamp ≤ f.stamp)), f)])
          refine ⟨((i :: is).takeWhile (fun m => decide (m.stamp ≤ f.stamp)), f) :: ms, ir, fr,
            ?_, fun _ => hn hd, ?_, ?_⟩
          · rw [getMeasurementsLoop_pair f fs i is acc h1 h2, he]
            simp
          · intro p hp
            rcases List.mem_cons.mp hp with rfl | hp
            · refine ⟨⟨i, ?_, h2⟩, ?_⟩
              · simp [List.takeWhile_cons, le_of_lt h2]
              · intro m hm
                simpa using List.mem_takeWhile_imp hm
            · exact hb p hp
          · simpa using hs
        · obtain ⟨ms, ir, fr, he, hn, hb, hs⟩ := ih (i :: is) acc
          exact ⟨ms, ir, fr, by rw [getMeasurementsLoop_throw f fs i is acc h1 h2, he], hn, hb,
            hs.cons f⟩
      · exact ⟨[], i :: is, f :: fs, by simp [getMeasurementsLoop_wait f fs i is acc h1],
          fun _ => List.cons_ne_nil i is, by simp, by simp⟩

end PairerLemmas

section PairerClaims
variable {K : Type} [LinearOrder K]

/-- C1 (amended): `getMeasurements` always returns, and every returned tuple `(IMUs, f)`
has a non-empty `IMUs` whose first sample is strictly before the frame, while every
sample of `IMUs`, the last one included, has a stamp at most the frame's stamp. -/
theorem getMeasurements_batch_bounds (imu_buf : List (ImuMsg K))
    (feature_buf : List (PointCloudMsg K)) :
    ∃ r, getMeasurements imu_buf feature_buf = some r ∧
      ∀ p ∈ r.measurements,
        (∃ first, p.1.head? = some first ∧ first.stamp < p.2.stamp) ∧
        (∀ m ∈ p.1, m.stamp ≤ p.2.stamp) ∧
        (∀ last, p.1.getLast? = some last → last.stamp ≤ p.2.stamp) := by
  obtain ⟨ms, ir, fr, he, -, hb, -⟩ := getMeasurementsLoop_spec feature_buf imu_buf []
  refine ⟨_, he, ?_⟩
  intro p hp
  have hp' : p ∈ ms := by simpa using hp
  refine ⟨(hb p hp').1, (hb p hp').2, ?_⟩
  intro last hl
  exact (hb p hp').2 last (List.mem_of_getLast?_eq_some hl)

/-- C1 (as stated) fails: with IMU samples at 0.9 and 1.1 and a frame at 1.0 the returned
batch is `[IMU@0.9]`, whose last sample is before the frame, not at or after it. -/
theorem getMeasurements_last_before_frame :
    ∃ r, getMeasurements [imuAt (9 / 10 : ℚ), imuAt (11 / 10)] [frameAt 1] = some r ∧
      ∃ p ∈ r.measurements, ∃ last, p.1.getLast? = some last ∧ ¬ last.stamp ≥ p.2.stamp := by
  refine ⟨⟨[([imuAt (9 / 10)], frameAt 1)], [imuAt (11 / 10)], []⟩, ?_, ?_⟩
  · simp [getMeasurements, getMeasurementsLoop, collectIMUs, imuAt, frameAt]
    norm_num
  · refine ⟨([imuAt (9 / 10)], frameAt 1), by simp, imuAt (9 / 10), by simp, ?_⟩
    simp [imuAt, frameAt]
    norm_num

/-- C2: when the three guards pass for the oldest frame `f`, the inner loop returns (it
never reads the front of an empty queue), the batch of `f` is the longest prefix of
`imu_buf` with stamps at most `f`'s stamp, the queue left after pairing `f` is non-empty
and starts with the first sample after `f`, and the call continues from that queue. -/
theorem getMeasurements_pairs_up_to_frame (imu_buf : List (ImuMsg K))
    (f : PointCloudMsg K) (fs : List (PointCloudMsg K)) (hne : imu_buf ≠ [])
    (hback : (imu_buf.getLast hne).stamp > f.stamp)
    (hfront : (imu_buf.head hne).stamp < f.stamp) :
    ∃ IMUs straddle rest,
      collectIMUs f.stamp imu_buf [] = some (IMUs, straddle :: rest) ∧
      IMUs ++ straddle :: rest = imu_buf ∧
      (∀ m ∈ IMUs, m.stamp ≤ f.stamp) ∧
      straddle.stamp > f.stamp ∧
      ∃ r, getMeasurements (straddle :: rest) fs = some r ∧
        r.imu_buf ≠ [] ∧
        getMeasurements imu_buf (f :: fs) =
          some ⟨(IMUs, f) :: r.measurements, r.imu_buf, r.feature_buf⟩ := by
  cases imu_buf with
  | nil => exact absurd rfl hne
  | cons i is =>
    have hd := dropWhile_ne_nil_of_getLast f.stamp (i :: is) hne hback
    obtain ⟨straddle, rest, hdrop⟩ := List.exists_cons_of_ne_nil hd
    have hstr : straddle.stamp > f.stamp := by
      have h := List.head_dropWhile_not (fun m : ImuMsg K => decide (m.stamp ≤ f.stamp))
        (i :: is) hd
      simp only [hdrop, List.head_cons, decide_eq_false_iff_not, not_le] at h
      exact h
    obtain ⟨ms, ir, fr, he, hn, -, -⟩ := getMeasurementsLoop_spec fs (straddle :: rest) []
    refine ⟨(i :: is).takeWhile (fun m => decide (m.stamp ≤ f.stamp)), straddle, rest,
      ?_, ?_, ?_, hstr, ⟨_, he, hn (List.cons_ne_nil _ _), ?_⟩⟩
    · rw [collectIMUs_eq, if_neg hd, hdrop]
      simp
    · rw [← hdrop]
      exact List.takeWhile_append_dropWhile _ _
    · intro m hm
      simpa using List.mem_takeWhile_imp hm
    · have hfront' : i.stamp < f.stamp := by simpa using hfront
      show getMeasurementsLoop (f :: fs) (i :: is) [] = _
      rw [getMeasurementsLoop_pair f fs i is [] hback hfront', hdrop,
        getMeasurementsLoop_acc, he]
      simp

/-- C2 at IMU samples 0.9, 1.0, 1.1 and a frame at 1.0. -/
theorem getMeasurements_pairs_up_to_frame_witness :
    ∃ IMUs straddle rest,
      collectIMUs (frameAt (1 : ℚ)).stamp [imuAt (9 / 10), imuAt 1, imuAt (11 / 10)] [] =
        some (IMUs, straddle :: rest) ∧
      IMUs ++ straddle :: rest = [imuAt (9 / 10), imuAt 1, imuAt (11 / 10)] ∧
      (∀ m ∈ IMUs, m.stamp ≤ (frameAt (1 : ℚ)).stamp) ∧
      straddle.stamp > (frameAt (1 : ℚ)).stamp ∧
      ∃ r, getMeasurements (straddle :: rest) [] = some r ∧
        r.imu_buf ≠ [] ∧
        getMeasurements [imuAt (9 / 10), imuAt 1, imuAt (11 / 10)] [frameAt (1 : ℚ)] =
          some ⟨(IMUs, frameAt 1) :: r.measurements, r.imu_buf, r.feature_buf⟩ :=
  getMeasurements_pairs_up_to_frame [imuAt (9 / 10), imuAt 1, imuAt (11 / 10)]
    (frameAt 1) [] (by simp) (by simp [imuAt, frameAt]; norm_num)
    (by simp [imuAt, frameAt]; norm_num)

/-- C3: with a waiting frame and an IMU queue that is empty or whose newest stamp is at
most the oldest frame's stamp, `getMeasurements` returns the empty vector and leaves
both queues as they were. -/
theorem getMeasurements_waits_for_imu (imu_buf : List (ImuMsg K)) (f : PointCloudMsg K)
    (fs : List (PointCloudMsg K))
    (h : ∀ newest, imu_buf.getLast? = some newest → newest.stamp ≤ f.stamp) :
    getMeasurements imu_buf (f :: fs) = some ⟨[], imu_buf, f :: fs⟩ := by
  cases imu_buf with
  | nil => simp [getMeasurements, getMeasurementsLoop]
  | cons i is =>
    have hl := h _ (List.getLast?_eq_getLast (i :: is) (List.cons_ne_nil i is))
    exact getMeasurementsLoop_wait f fs i is [] (not_lt.mpr hl)

/-- C3 at a frame at 1.0 with IMU samples at 0.8 and 0.9 only. -/
theorem getMeasurements_waits_for_imu_witness :
    getMeasurements [imuAt (8 / 10 : ℚ), imuAt (9 / 10)] [frameAt 1, frameAt 2] =
      some ⟨[], [imuAt (8 / 10), imuAt (9 / 10)], [frameAt 1, frameAt 2]⟩ :=
  getMeasurements_waits_for_imu [imuAt (8 / 10), imuAt (9 / 10)] (frameAt 1) [frameAt 2]
    (by simp [imuAt, frameAt]; norm_num)

/-- C4: when the newest IMU sample is after the oldest frame `f` but the oldest IMU sample
is not before it, `getMeasurements` behaves exactly as on the same queues with `f`
removed: same returned vector, same final queues, `imu_buf` passed on untouched; the
frames it returns or keeps are all taken, in order, from the frames behind `f`. -/
theorem getMeasurements_throws_early_frame (imu_buf : List (ImuMsg K))
    (f : PointCloudMsg K) (fs : List (PointCloudMsg K)) (hne : imu_buf ≠ [])
    (hback : (imu_buf.getLast hne).stamp > f.stamp)
    (hfront : (imu_buf.head hne).stamp ≥ f.stamp) :
    ∃ r, getMeasurements imu_buf fs = some r ∧
      getMeasurements imu_buf (f :: fs) = some r ∧
      (r.measurements.map Prod.snd ++ r.feature_buf).Sublist fs := by
  cases imu_buf with
  | nil => exact absurd rfl hne
  | cons i is =>
    obtain ⟨ms, ir, fr, he, -, -, hs⟩ := getMeasurementsLoop_spec fs (i :: is) []
    have hfront' : ¬ i.stamp < f.stamp := by simpa using hfront
    refine ⟨_, he, ?_, by simpa using hs⟩
    show getMeasurementsLoop (f :: fs) (i :: is) [] = _
    rw [getMeasurementsLoop_throw f fs i is [] hback hfront']
    exact he

/-- C4 at IMU samples 1.0 and 2.5 with frames at 0.5 and 2.0: the frame at 0.5 is thrown
away. -/
theorem getMeasurements_throws_early_frame_witness :
    ∃ r, getMeasurements [imuAt (1 : ℚ), imuAt (5 / 2)] [frameAt 2] = some r ∧
      getMeasurements [imuAt (1 : ℚ), imuAt (5 / 2)] [frameAt (1 / 2), frameAt 2] = some r ∧
      (r.measurements.map Prod.snd ++ r.feature_buf).Sublist [frameAt 2] :=
  getMeasurements_throws_early_frame [imuAt 1, imuAt (5 / 2)] (frameAt (1 / 2)) [frameAt 2]
    (by simp) (by simp [imuAt, frameAt]; norm_num) (by simp [imuAt, frameAt]; norm_num)

end PairerClaims

/-! ## Vector and quaternion algebra -/

section Algebra
variable {K : Type}

@[simp] theorem Vec3.add_x [Add K] (a b : Vec3 K) : (a + b).x = a.x + b.x := rfl
@[simp] theorem Vec3.add_y [Add K] (a b : Vec3 K) : (a + b).y = a.y + b.y := rfl
@[simp] theorem Vec3.add_z [Add K] (a b : Vec3 K) : (a + b).z = a.z + b.z := rfl
@[simp] theorem Vec3.sub_x [Sub K] (a b : Vec3 K) : (a - b).x = a.x - b.x := rfl
@[simp] theorem Vec3.sub_y [Sub K] (a b : Vec3 K) : (a - b).y = a.y - b.y := rfl
@[simp] theorem Vec3.sub_z [Sub K] (a b : Vec3 K) : (a - b).z = a.z - b.z := rfl
@[simp] theorem Vec3.smul_x [Mul K] (c : K) (a : Vec3 K) : (c • a).x = c * a.x := rfl
@[simp] theorem Vec3.smul_y [Mul K] (c : K) (a : Vec3 K) : (c • a).y = c * a.y := rfl
@[simp] theorem Vec3.smul_z [Mul K] (c : K) (a : Vec3 K) : (c • a).z = c * a.z := rfl
@[simp] theorem Vec3.zero_x [Zero K] : (0 : Vec3 K).x = 0 := rfl
@[simp] theorem Vec3.zero_y [Zero K] : (0 : Vec3 K).y = 0 := rfl
@[simp] theorem Vec3.zero_z [Zero K] : (0 : Vec3 K).z = 0 := rfl

theorem Quat.squaredNorm_mul [CommRing K] (a b : Quat K) :
    (a.mul b).squaredNorm = a.squaredNorm * b.squaredNorm := by
  simp only [Quat.mul, Quat.squaredNorm]
  ring

theorem Quat.transformVector_sub [CommRing K] (q : Quat K) (a b : Vec3 K) :
    q.transformVector (a - b) = q.transformVector a - q.transformVector b := by
  ext <;> simp [Quat.transformVector, Quat.vec, Vec3.cross] <;> ring

theorem Quat.inverse_of_unit [LinearOrderedField K] (q : Quat K) (h : q.squaredNorm = 1) :
    q.inverse = ⟨q.w, -q.x, -q.y, -q.z⟩ := by
  simp [Quat.inverse, h]

theorem Quat.transformVector_inverse_of_unit [LinearOrderedField K] (q : Quat K)
    (h : q.squaredNorm = 1) (v : Vec3 K) :
    q.transformVector (q.inverse.transformVector v) = v := by
  rw [Quat.inverse_of_unit q h]
  simp only [Quat.squaredNorm] at h
  ext
  · simp [Quat.transformVector, Quat.vec, Vec3.cross]
    linear_combination (-4 * (q.x * q.y * v.y + q.x * q.z * v.z
      - v.x * (q.y * q.y + q.z * q.z))) * h
  · simp [Quat.transformVector, Quat.vec, Vec3.cross]
    linear_combination (-4 * (q.y * q.x * v.x + q.y * q.z * v.z
      - v.y * (q.x * q.x + q.z * q.z))) * h
  · simp [Quat.transformVector, Quat.vec, Vec3.cross]
    linear_combination (-4 * (q.z * q.x * v.x + q.z * q.y * v.y
      - v.z * (q.x * q.x + q.y * q.y))) * h

end Algebra

/-! ## The fast predictor -/

section PredictorClaims
variable {K : Type} [LinearOrderedField K]

/-- C5 (amended): with a unit pre-update orientation `q`, one `predict` step uses
`dt = sample.t - latest_time`, `a0 = q*(acc_0 - Ba) - g`,
`a1 = q'*(sample.a - Ba) - q'*(q'^{-1}*g)` for the post-update orientation `q'`,
`abar = (a0 + a1)/2`, `tmp_P = P + dt*V + (1/2)*dt^2*abar` and `tmp_V = V + dt*abar`;
the gravity term of `a1` is `g` itself whenever `q'` has unit norm. -/
theorem predict_midpoint_integration (g : Vec3 K) (s : PredictorState K) (m : ImuMsg K)
    (hq : s.tmp_Q.squaredNorm = 1) :
    ∃ dt q' a0 a1 abar,
      dt = m.stamp - s.latest_time ∧
      q' = (predict g s m).tmp_Q ∧
      a0 = s.tmp_Q.transformVector (s.acc_0 - s.tmp_Ba) - g ∧
      a1 = q'.transformVector (m.linear_acceleration - s.tmp_Ba)
            - q'.transformVector (q'.inverse.transformVector g) ∧
      abar = (1 / 2 : K) • (a0 + a1) ∧
      (predict g s m).tmp_P = s.tmp_P + dt • s.tmp_V + (1 / 2 * dt * dt) • abar ∧
      (predict g s m).tmp_V = s.tmp_V + dt • abar ∧
      (q'.squaredNorm = 1 → q'.transformVector (q'.inverse.transformVector g) = g) := by
  refine ⟨_, _, _, _, _, rfl, rfl, rfl, rfl, rfl, ?_, ?_, ?_⟩
  · simp only [predict, Quat.transformVector_sub, Quat.transformVector_inverse_of_unit _ hq]
  · simp only [predict, Quat.transformVector_sub, Quat.transformVector_inverse_of_unit _ hq]
  · intro h
    exact Quat.transformVector_inverse_of_unit _ h g

/-- C5 (amended) at the rest state, gravity `(0, 1, 0)` and a sample with angular rate
`(4, 0, 0)` one second later. -/
theorem predict_midpoint_integration_witness :
    (restState (K := ℚ)).tmp_Q.squaredNorm = 1 ∧
    ∃ dt q' a0 a1 abar,
      dt = turnSample.stamp - (restState (K := ℚ)).latest_time ∧
      q' = (predict gravityY restState turnSample).tmp_Q ∧
      a0 = (restState (K := ℚ)).tmp_Q.transformVector
            ((restState (K := ℚ)).acc_0 - (restState (K := ℚ)).tmp_Ba) - gravityY ∧
      a1 = q'.transformVector (turnSample.linear_acceleration - (restState (K := ℚ)).tmp_Ba)
            - q'.transformVector (q'.inverse.transformVector gravityY) ∧
      abar = (1 / 2 : ℚ) • (a0 + a1) ∧
      (predict gravityY restState turnSample).tmp_P =
        (restState (K := ℚ)).tmp_P + dt • (restState (K := ℚ)).tmp_V
          + (1 / 2 * dt * dt) • abar ∧
      (predict gravityY restState turnSample).tmp_V =
        (restState (K := ℚ)).tmp_V + dt • abar ∧
      (q'.squaredNorm = 1 → q'.transformVector (q'.inverse.transformVector gravityY)
        = gravityY) :=
  ⟨by simp [restState, Quat.identity, Quat.squaredNorm],
    predict_midpoint_integration gravityY restState turnSample
      (by simp [restState, Quat.identity, Quat.squaredNorm])⟩

/-- C5 (as stated) fails at the new step: from the rest state (unit orientation) with
gravity `(0, 1, 0)` and angular rate `(4, 0, 0)` over one second, the post-update
orientation is `(1, 1, 0, 0)`, the code's `q'*(x - Ba - q'^{-1}*g)` differs from
`q'*(x - Ba) - g`, and `tmp_V` is `(0, -3/4, -3/4)` instead of the claimed
`V + dt*abar = (0, -1, 0)`. -/
theorem predict_gravity_term_not_g :
    (restState (K := ℚ)).tmp_Q.squaredNorm = 1 ∧
    (predict gravityY restState turnSample).tmp_Q = ⟨1, 1, 0, 0⟩ ∧
    (predict gravityY restState turnSample).tmp_Q.transformVector
        (turnSample.linear_acceleration - (restState (K := ℚ)).tmp_Ba
          - (predict gravityY restState turnSample).tmp_Q.inverse.transformVector gravityY)
      ≠ (predict gravityY restState turnSample).tmp_Q.transformVector
          (turnSample.linear_acceleration - (restState (K := ℚ)).tmp_Ba) - gravityY ∧
    (predict gravityY restState turnSample).tmp_V = ⟨0, -3 / 4, -3 / 4⟩ ∧
    (predict gravityY restState turnSample).tmp_V ≠
      (restState (K := ℚ)).tmp_V + (turnSample.stamp - (restState (K := ℚ)).latest_time) •
        ((1 / 2 : ℚ) •
          (((restState (K := ℚ)).tmp_Q.transformVector
              ((restState (K := ℚ)).acc_0 - (restState (K := ℚ)).tmp_Ba) - gravityY)
            + ((predict gravityY restState turnSample).tmp_Q.transformVector
                (turnSample.linear_acceleration - (restState (K := ℚ)).tmp_Ba)
              - gravityY))) := by
  have hQ : (predict gravityY restState turnSample).tmp_Q = ⟨1, 1, 0, 0⟩ := by
    simp [predict, restState, turnSample, Quat.identity, Quat.mul, deltaQ]
    norm_num
  have hV : (predict gravityY restState turnSample).tmp_V = ⟨0, -3 / 4, -3 / 4⟩ := by
    ext <;>
      simp [predict, restState, turnSample, gravityY, Quat.identity, Quat.mul, deltaQ,
        Quat.inverse, Quat.squaredNorm, Quat.transformVector, Quat.vec, Vec3.cross] <;>
      norm_num
  refine ⟨by simp [restState, Quat.identity, Quat.squaredNorm], hQ, ?_, hV, ?_⟩
  · rw [hQ]
    simp [restState, turnSample, gravityY, Quat.inverse, Quat.squaredNorm,
      Quat.transformVector, Quat.vec, Vec3.cross, Vec3.ext_iff]
    norm_num
  · rw [hV, hQ]
    simp [restState, turnSample, gravityY, Quat.identity, Quat.transformVector, Quat.vec,
      Vec3.cross, Vec3.ext_iff]

/-- C6 (amended): `predict` does not renormalise. From a unit `tmp_Q`, the orientation
after the step has squared norm `1 + |theta|^2 / 4`, where
`theta = dt * ((gyr_0 + sample.w)/2 - Bg)` is the argument of the increment quaternion
`[1, theta/2]`; it has unit norm again exactly when `theta = 0`. -/
theorem predict_orientation_norm (g : Vec3 K) (s : PredictorState K) (m : ImuMsg K)
    (hq : s.tmp_Q.squaredNorm = 1) :
    ∃ theta : Vec3 K,
      theta = (m.stamp - s.latest_time) •
        ((1 / 2 : K) • (s.gyr_0 + m.angular_velocity) - s.tmp_Bg) ∧
      (predict g s m).tmp_Q = s.tmp_Q.mul (deltaQ theta) ∧
      (predict g s m).tmp_Q.squaredNorm =
        1 + (theta.x * theta.x + theta.y * theta.y + theta.z * theta.z) / 4 ∧
      ((predict g s m).tmp_Q.squaredNorm = 1 ↔ theta = 0) := by
  refine ⟨_, rfl, rfl, ?_, ?_⟩
  · simp only [predict, Quat.squaredNorm_mul, hq]
    simp only [deltaQ, Quat.squaredNorm]
    ring
  · simp only [predict, Quat.squaredNorm_mul, hq]
    generalize (m.stamp - s.latest_time) •
      ((1 / 2 : K) • (s.gyr_0 + m.angular_velocity) - s.tmp_Bg) = theta
    simp only [deltaQ, Quat.squaredNorm]
    constructor
    · intro h
      have hx := mul_self_nonneg theta.x
      have hy := mul_self_nonneg theta.y
      have hz := mul_self_nonneg theta.z
      have hsum : theta.x * theta.x + theta.y * theta.y + theta.z * theta.z = 0 := by
        linear_combination 4 * h
      have hx0 : theta.x * theta.x = 0 := by linarith
      have hy0 : theta.y * theta.y = 0 := by linarith
      have hz0 : theta.z * theta.z = 0 := by linarith
      ext
      · simpa using mul_self_eq_zero.mp hx0
      · simpa using mul_self_eq_zero.mp hy0
      · simpa using mul_self_eq_zero.mp hz0
    · intro h
      subst h
      simp

/-- C6 (amended) at the rest state and a sample with angular rate `(4, 0, 0)` one second
later. -/
theorem predict_orientation_norm_witness :
    (restState (K := ℚ)).tmp_Q.squaredNorm = 1 ∧
    ∃ theta : Vec3 ℚ,
      theta = (turnSample.stamp - (restState (K := ℚ)).latest_time) •
        ((1 / 2 : ℚ) • ((restState (K := ℚ)).gyr_0 + turnSample.angular_velocity)
          - (restState (K := ℚ)).tmp_Bg) ∧
      (predict gravityY restState turnSample).tmp_Q =
        (restState (K := ℚ)).tmp_Q.mul (deltaQ theta) ∧
      (predict gravityY restState turnSample).tmp_Q.squaredNorm =
        1 + (theta.x * theta.x + theta.y * theta.y + theta.z * theta.z) / 4 ∧
      ((predict gravityY restState turnSample).tmp_Q.squaredNorm = 1 ↔ theta = 0) :=
  ⟨by simp [restState, Quat.identity, Quat.squaredNorm],
    predict_orientation_norm gravityY restState turnSample
      (by simp [restState, Quat.identity, Quat.squaredNorm])⟩

/-- C6 (as stated) fails: from the rest state, whose orientation is the identity (unit
norm), a sample with angular rate `(4, 0, 0)` one second later leaves `tmp_Q` with
squared norm 2. -/
theorem predict_orientation_not_unit :
    (restState (K := ℚ)).tmp_Q.squaredNorm = 1 ∧
    (predict gravityY restState turnSample).tmp_Q.squaredNorm = 2 ∧
    (predict gravityY restState turnSample).tmp_Q.squaredNorm ≠ 1 := by
  have h : (predict gravityY restState turnSample).tmp_Q.squaredNorm = 2 := by
    simp [predict, restState, turnSample, Quat.identity, Quat.mul, deltaQ, Quat.squaredNorm]
    norm_num
  refine ⟨by simp [restState, Quat.identity, Quat.squaredNorm], h, ?_⟩
  rw [h]
  norm_num

/-- C7: after `predict`, `latest_time` is the sample's stamp and `acc_0`, `gyr_0` are the
sample's raw acceleration and angular rate; so after any run of samples delivered one
after the other, `latest_time` is the stamp of the last one. -/
theorem predict_records_sample (g : Vec3 K) (s : PredictorState K) (m : ImuMsg K)
    (earlier : List (ImuMsg K)) :
    (predict g s m).latest_time = m.stamp ∧
    (predict g s m).acc_0 = m.linear_acceleration ∧
    (predict g s m).gyr_0 = m.angular_velocity ∧
    ((earlier ++ [m]).foldl (predict g) s).latest_time = m.stamp ∧
    ((earlier ++ [m]).foldl (predict g) s).acc_0 = m.linear_acceleration ∧
    ((earlier ++ [m]).foldl (predict g) s).gyr_0 = m.angular_velocity := by
  refine ⟨rfl, rfl, rfl, ?_, ?_, ?_⟩ <;> simp [List.foldl_append, predict]

theorem constAccSamples_succ (t0 dt : K) (a : Vec3 K) (n : Nat) :
    constAccSamples t0 dt a (n + 1) =
      constAccSamples t0 dt a n ++ [⟨t0 + ((n : K) + 1) * dt, a, 0⟩] := by
  simp [constAccSamples, List.range_succ]

theorem Quat.identity_transformVector (v : Vec3 K) :
    (Quat.identity : Quat K).transformVector v = v := by
  ext <;> simp [Quat.identity, Quat.transformVector, Quat.vec, Vec3.cross]

theorem Quat.identity_inverse : (Quat.identity : Quat K).inverse = Quat.identity := by
  simp [Quat.identity, Quat.inverse, Quat.squaredNorm]

theorem Quat.mul_deltaQ_zero (q : Quat K) : q.mul (deltaQ (0 : Vec3 K)) = q := by
  ext <;> simp [Quat.mul, deltaQ]

theorem predict_constAcc_step (t t' : K) (p v a : Vec3 K) :
    predict 0
        { latest_time := t, tmp_P := p, tmp_Q := Quat.identity, tmp_V := v, tmp_Ba := 0,
          tmp_Bg := 0, acc_0 := a, gyr_0 := 0 }
        ⟨t', a, 0⟩ =
      { latest_time := t'
        tmp_P := p + (t' - t) • v + (1 / 2 * (t' - t) * (t' - t)) • a
        tmp_Q := Quat.identity
        tmp_V := v + (t' - t) • a
        tmp_Ba := 0
        tmp_Bg := 0
        acc_0 := a
        gyr_0 := 0 } := by
  have hgyr : (t' - t) • ((1 / 2 : K) • ((0 : Vec3 K) + 0) - 0) = 0 := by
    ext <;> simp
  have hacc : (1 / 2 : K) • ((a - 0 - 0) + (a - 0 - 0)) = a := by
    ext <;> simp <;> ring
  simp only [predict, hgyr, Quat.mul_deltaQ_zero, Quat.identity_inverse,
    Quat.identity_transformVector, hacc]

theorem predict_constAcc_run (t0 dt : K) (p0 v0 a : Vec3 K) (n : Nat) :
    (constAccSamples t0 dt a n).foldl (predict 0) (constAccInit t0 p0 v0 a) =
      { latest_time := t0 + (n : K) * dt
        tmp_P := p0 + ((n : K) * dt) • v0 + (1 / 2 * ((n : K) * dt) * ((n : K) * dt)) • a
        tmp_Q := Quat.identity
        tmp_V := v0 + ((n : K) * dt) • a
        tmp_Ba := 0
        tmp_Bg := 0
        acc_0 := a
        gyr_0 := 0 } := by
  induction n with
  | zero => ext <;> simp [constAccSamples, constAccInit]
  | succ n ih =>
    rw [constAccSamples_succ, List.foldl_append, ih]
    simp only [List.foldl_cons, List.foldl_nil, predict_constAcc_step]
    ext <;> simp <;> ring

/-- C8: from identity orientation, zero gravity, zero biases, zero angular rate and
`acc_0 = a`, feeding `predict` `N` samples of acceleration `a` spaced `dt` apart gives
exactly `p = p0 + v0*T + (1/2)*a*T^2`, `v = v0 + a*T` and `q = I` with `T = N*dt`; from
rest the displacement is `(1/2)*a*T^2`; and with `a = 0`, `v0 = (1,0,0)`, `dt = 0.01`,
`N = 10`, `p0 = 0` the final state has `p = (0.1, 0, 0)`, `v = (1, 0, 0)`, `q = I`. -/
theorem predict_constant_acceleration (t0 dt : K) (p0 v0 a : Vec3 K) (N : Nat) :
    (((constAccSamples t0 dt a N).foldl (predict 0) (constAccInit t0 p0 v0 a)).tmp_P =
        p0 + ((N : K) * dt) • v0 + (1 / 2 * ((N : K) * dt) * ((N : K) * dt)) • a ∧
      ((constAccSamples t0 dt a N).foldl (predict 0) (constAccInit t0 p0 v0 a)).tmp_V =
        v0 + ((N : K) * dt) • a ∧
      ((constAccSamples t0 dt a N).foldl (predict 0) (constAccInit t0 p0 v0 a)).tmp_Q =
        Quat.identity) ∧
    (((constAccSamples t0 dt a N).foldl (predict 0) (constAccInit t0 0 0 a)).tmp_P =
        (1 / 2 * ((N : K) * dt) * ((N : K) * dt)) • a ∧
      ((constAccSamples t0 dt a N).foldl (predict 0) (constAccInit t0 0 0 a)).tmp_V =
        ((N : K) * dt) • a) ∧
    (((constAccSamples t0 (1 / 100) 0 10).foldl (predict 0)
          (constAccInit t0 0 ⟨1, 0, 0⟩ 0)).tmp_P = (⟨1 / 10, 0, 0⟩ : Vec3 K) ∧
      ((constAccSamples t0 (1 / 100) 0 10).foldl (predict 0)
          (constAccInit t0 0 ⟨1, 0, 0⟩ 0)).tmp_V = (⟨1, 0, 0⟩ : Vec3 K) ∧
      ((constAccSamples t0 (1 / 100) 0 10).foldl (predict 0)
          (constAccInit t0 0 ⟨1, 0, 0⟩ 0)).tmp_Q = (Quat.identity : Quat K)) := by
  rw [predict_constAcc_run, predict_constAcc_run, predict_constAcc_run]
  refine ⟨⟨rfl, rfl, rfl⟩, ⟨?_, ?_⟩, ⟨?_, ?_, rfl⟩⟩
  · ext <;> simp
  · ext <;> simp
  · ext <;> simp
    norm_num
  · ext <;> simp

end PredictorClaims

/-! ## Reseeding the predictor -/

section UpdateClaims
variable {K : Type} [LinearOrderedField K]

theorem updateLoop_eq_foldl (g : Vec3 K) (l : List (ImuMsg K)) (s : PredictorState K) :
    updateLoop g l s = l.foldl (predict g) s := by
  induction l generalizing s with
  | nil => rfl
  | cons m rest ih => simp [updateLoop, ih]

theorem Mat3.identity_mulVec (v : Vec3 K) : (Mat3.identity : Mat3 K).mulVec v = v := by
  ext <;> simp [Mat3.identity, Mat3.mulVec, Vec3.dot]

theorem Mat3.identity_mul (m : Mat3 K) : (Mat3.identity : Mat3 K).mul m = m := by
  ext <;> simp [Mat3.identity, Mat3.mul, Mat3.rowMul]

/-- C9: `update()` leaves the predictor in the state obtained by seeding it from the
estimator's newest window slot under the correction (`tmp_P = relocalize_r*Ps + relocalize_t`,
`tmp_Q = relocalize_r*Rs`, `tmp_V = Vs`, biases from `Bas`/`Bgs`, `acc_0`/`gyr_0` from the
estimator's last raw IMU, `latest_time = current_time`) and then applying `predict` to
every sample of `imu_buf` in queue order; `imu_buf` and the other globals are unchanged. -/
theorem update_seeds_then_replays (WINDOW_SIZE : Nat) (quatOfMat : Mat3 K → Quat K)
    (s : NodeState K) :
    ∃ seeded : PredictorState K,
      seeded.latest_time = s.current_time ∧
      seeded.tmp_P = s.relocalize_r.mulVec (s.estimator.Ps WINDOW_SIZE) + s.relocalize_t ∧
      seeded.tmp_Q = quatOfMat (s.relocalize_r.mul (s.estimator.Rs WINDOW_SIZE)) ∧
      seeded.tmp_V = s.estimator.Vs WINDOW_SIZE ∧
      seeded.tmp_Ba = s.estimator.Bas WINDOW_SIZE ∧
      seeded.tmp_Bg = s.estimator.Bgs WINDOW_SIZE ∧
      seeded.acc_0 = s.estimator.acc_0 ∧
      seeded.gyr_0 = s.estimator.gyr_0 ∧
      (update WINDOW_SIZE quatOfMat s).pred =
        s.imu_buf.foldl (predict s.estimator.g) seeded ∧
      (update WINDOW_SIZE quatOfMat s).imu_buf = s.imu_buf ∧
      (update WINDOW_SIZE quatOfMat s).current_time = s.current_time ∧
      (update WINDOW_SIZE quatOfMat s).relocalize_r = s.relocalize_r ∧
      (update WINDOW_SIZE quatOfMat s).relocalize_t = s.relocalize_t :=
  ⟨seed WINDOW_SIZE quatOfMat s, rfl, rfl, rfl, rfl, rfl, rfl, rfl, rfl,
    updateLoop_eq_foldl _ _ _, rfl, rfl, rfl, rfl⟩

/-- C10: with the identity correction and an empty `imu_buf`, `update()` integrates
nothing: the predictor is exactly the seeded state, its `(p, q, v)` are the estimator's
`(Ps, Rs, Vs)[WINDOW_SIZE]` unmodified, and a second `update()` changes nothing. -/
theorem update_identity_empty_queue (WINDOW_SIZE : Nat) (quatOfMat : Mat3 K → Quat K)
    (s : NodeState K) (hr : s.relocalize_r = Mat3.identity) (ht : s.relocalize_t = 0)
    (hq : s.imu_buf = []) :
    (update WINDOW_SIZE quatOfMat s).pred = seed WINDOW_SIZE quatOfMat s ∧
    (update WINDOW_SIZE quatOfMat s).pred.tmp_P = s.estimator.Ps WINDOW_SIZE ∧
    (update WINDOW_SIZE quatOfMat s).pred.tmp_Q = quatOfMat (s.estimator.Rs WINDOW_SIZE) ∧
    (update WINDOW_SIZE quatOfMat s).pred.tmp_V = s.estimator.Vs WINDOW_SIZE ∧
    update WINDOW_SIZE quatOfMat (update WINDOW_SIZE quatOfMat s) =
      update WINDOW_SIZE quatOfMat s := by
  have hpred : (update WINDOW_SIZE quatOfMat s).pred = seed WINDOW_SIZE quatOfMat s := by
    simp [update, hq, updateLoop]
  refine ⟨hpred, ?_, ?_, ?_, rfl⟩
  · rw [hpred]
    simp only [seed, hr, ht, Mat3.identity_mulVec]
    ext <;> simp
  · rw [hpred]
    simp only [seed, hr, Mat3.identity_mul]
  · rw [hpred]
    rfl

/-- C10 at a node whose estimator holds position `(1, 2, 3)`, identity rotation and
velocity `(4, 5, 6)`, with a predictor left over from earlier integration. -/
theorem update_identity_empty_queue_witness :
    (update 10 (fun _ => Quat.identity) idleNode).pred =
      seed 10 (fun _ => Quat.identity) idleNode ∧
    (update 10 (fun _ => Quat.identity) idleNode).pred.tmp_P = idleNode.estimator.Ps 10 ∧
    (update 10 (fun _ => Quat.identity) idleNode).pred.tmp_Q =
      (fun _ => Quat.identity) (idleNode.estimator.Rs 10) ∧
    (update 10 (fun _ => Quat.identity) idleNode).pred.tmp_V = idleNode.estimator.Vs 10 ∧
    update 10 (fun _ => Quat.identity) (update 10 (fun _ => Quat.identity) idleNode) =
      update 10 (fun _ => Quat.identity) idleNode :=
  update_identity_empty_queue 10 (fun _ => Quat.identity) idleNode rfl rfl rfl

end UpdateClaims

/-! ## The predictor has no guards -/

section PredictorGuards
variable {K : Type} [LinearOrderedField K]

/-- C11 (amended): `predict` has no initialisation branch. With `latest_time < 0` and a
sample stamp `t >= 0` it integrates over `dt = t - latest_time > 0` like any other step:
`tmp_Q = q*dq(dt*w)`, `tmp_P = P + dt*V + (1/2)*dt^2*abar`, `tmp_V = V + dt*abar` with
the code's midpoint rate `w` and acceleration `abar`, and `latest_time = t`. -/
theorem predict_integrates_when_unseeded (g : Vec3 K) (s : PredictorState K) (m : ImuMsg K)
    (hneg : s.latest_time < 0) (ht : 0 ≤ m.stamp) :
    ∃ dt q' abar,
      dt = m.stamp - s.latest_time ∧ 0 < dt ∧
      q' = s.tmp_Q.mul
        (deltaQ (dt • ((1 / 2 : K) • (s.gyr_0 + m.angular_velocity) - s.tmp_Bg))) ∧
      abar = (1 / 2 : K) •
        (s.tmp_Q.transformVector (s.acc_0 - s.tmp_Ba - s.tmp_Q.inverse.transformVector g)
          + q'.transformVector
              (m.linear_acceleration - s.tmp_Ba - q'.inverse.transformVector g)) ∧
      (predict g s m).tmp_Q = q' ∧
      (predict g s m).tmp_P = s.tmp_P + dt • s.tmp_V + (1 / 2 * dt * dt) • abar ∧
      (predict g s m).tmp_V = s.tmp_V + dt • abar ∧
      (predict g s m).latest_time = m.stamp :=
  ⟨_, _, _, rfl, by linarith, rfl, rfl, rfl, rfl, rfl, rfl⟩

/-- C11 (amended) at `latest_time = -1` and a sample at time 1. -/
theorem predict_integrates_when_unseeded_witness :
    ∃ dt q' abar,
      dt = (imuAt (1 : ℚ)).stamp - unseededState.latest_time ∧ 0 < dt ∧
      q' = unseededState.tmp_Q.mul
        (deltaQ (dt • ((1 / 2 : ℚ) • (unseededState.gyr_0 + (imuAt (1 : ℚ)).angular_velocity)
          - unseededState.tmp_Bg))) ∧
      abar = (1 / 2 : ℚ) •
        (unseededState.tmp_Q.transformVector
            (unseededState.acc_0 - unseededState.tmp_Ba
              - unseededState.tmp_Q.inverse.transformVector 0)
          + q'.transformVector
              ((imuAt (1 : ℚ)).linear_acceleration - unseededState.tmp_Ba
                - q'.inverse.transformVector 0)) ∧
      (predict 0 unseededState (imuAt 1)).tmp_Q = q' ∧
      (predict 0 unseededState (imuAt 1)).tmp_P =
        unseededState.tmp_P + dt • unseededState.tmp_V + (1 / 2 * dt * dt) • abar ∧
      (predict 0 unseededState (imuAt 1)).tmp_V = unseededState.tmp_V + dt • abar ∧
      (predict 0 unseededState (imuAt 1)).latest_time = (imuAt (1 : ℚ)).stamp :=
  predict_integrates_when_unseeded 0 unseededState (imuAt 1)
    (by simp [unseededState]) (by simp [imuAt])

/-- C11 (as stated) fails: with `latest_time = -1`, velocity `(1, 0, 0)` and a quiet
sample at time 1, `predict` moves `tmp_P` from the origin to `(2, 0, 0)`. -/
theorem predict_unseeded_moves_position :
    unseededState.latest_time < 0 ∧
    (predict 0 unseededState (imuAt 1)).tmp_P = ⟨2, 0, 0⟩ ∧
    (predict 0 unseededState (imuAt 1)).tmp_P ≠ unseededState.tmp_P := by
  have h : (predict 0 unseededState (imuAt 1)).tmp_P = ⟨2, 0, 0⟩ := by
    ext <;>
      simp [predict, unseededState, restState, imuAt, Quat.identity, Quat.mul, deltaQ,
        Quat.inverse, Quat.squaredNorm, Quat.transformVector, Quat.vec, Vec3.cross]
    norm_num
  refine ⟨by simp [unseededState], h, ?_⟩
  rw [h]
  simp [unseededState, restState, Vec3.ext_iff]

/-- C12 (amended): `predict` does not skip a sample that is older than `latest_time`. It
integrates over the negative `dt = t - latest_time` like any other step and moves
`latest_time` back to the sample's stamp. -/
theorem predict_integrates_negative_dt (g : Vec3 K) (s : PredictorState K) (m : ImuMsg K)
    (hlate : m.stamp < s.latest_time) :
    ∃ dt q' abar,
      dt = m.stamp - s.latest_time ∧ dt < 0 ∧
      q' = s.tmp_Q.mul
        (deltaQ (dt • ((1 / 2 : K) • (s.gyr_0 + m.angular_velocity) - s.tmp_Bg))) ∧
      abar = (1 / 2 : K) •
        (s.tmp_Q.transformVector (s.acc_0 - s.tmp_Ba - s.tmp_Q.inverse.transformVector g)
          + q'.transformVector
              (m.linear_acceleration - s.tmp_Ba - q'.inverse.transformVector g)) ∧
      (predict g s m).tmp_Q = q' ∧
      (predict g s m).tmp_P = s.tmp_P + dt • s.tmp_V + (1 / 2 * dt * dt) • abar ∧
      (predict g s m).tmp_V = s.tmp_V + dt • abar ∧
      (predict g s m).latest_time = m.stamp ∧
      (predict g s m).latest_time < s.latest_time :=
  ⟨_, _, _, rfl, by linarith, rfl, rfl, rfl, rfl, rfl, rfl, hlate⟩

/-- C12 (amended) at `latest_time = 2` and a sample at time 1. -/
theorem predict_integrates_negative_dt_witness :
    ∃ dt q' abar,
      dt = (imuAt (1 : ℚ)).stamp - aheadState.latest_time ∧ dt < 0 ∧
      q' = aheadState.tmp_Q.mul
        (deltaQ (dt • ((1 / 2 : ℚ) • (aheadState.gyr_0 + (imuAt (1 : ℚ)).angular_velocity)
          - aheadState.tmp_Bg))) ∧
      abar = (1 / 2 : ℚ) •
        (aheadState.tmp_Q.transformVector
            (aheadState.acc_0 - aheadState.tmp_Ba
              - aheadState.tmp_Q.inverse.transformVector 0)
          + q'.transformVector
              ((imuAt (1 : ℚ)).linear_acceleration - aheadState.tmp_Ba
                - q'.inverse.transformVector 0)) ∧
      (predict 0 aheadState (imuAt 1)).tmp_Q = q' ∧
      (predict 0 aheadState (imuAt 1)).tmp_P =
        aheadState.tmp_P + dt • aheadState.tmp_V + (1 / 2 * dt * dt) • abar ∧
      (predict 0 aheadState (imuAt 1)).tmp_V = aheadState.tmp_V + dt • abar ∧
      (predict 0 aheadState (imuAt 1)).latest_time = (imuAt (1 : ℚ)).stamp ∧
      (predict 0 aheadState (imuAt 1)).latest_time < aheadState.latest_time :=
  predict_integrates_negative_dt 0 aheadState (imuAt 1)
    (by simp [aheadState, imuAt])

/-- C12 (as stated) fails: with `latest_time = 2`, velocity `(1, 0, 0)` and a quiet sample
stamped 1, `dt = -1` and `predict` moves `tmp_P` from the origin to `(-1, 0, 0)`. -/
theorem predict_negative_dt_moves_position :
    (imuAt (1 : ℚ)).stamp < aheadState.latest_time ∧
    (predict 0 aheadState (imuAt 1)).tmp_P = ⟨-1, 0, 0⟩ ∧
    (predict 0 aheadState (imuAt 1)).tmp_P ≠ aheadState.tmp_P := by
  have h : (predict 0 aheadState (imuAt 1)).tmp_P = ⟨-1, 0, 0⟩ := by
    ext <;>
      simp [predict, aheadState, restState, imuAt, Quat.identity, Quat.mul, deltaQ,
        Quat.inverse, Quat.squaredNorm, Quat.transformVector, Quat.vec, Vec3.cross]
    norm_num
  refine ⟨by simp [aheadState, imuAt], h, ?_⟩
  rw [h]
  simp [aheadState, restState, Vec3.ext_iff]

end PredictorGuards

/-! ## IMU samples are conserved by the pairer -/

section PairerConservation
variable {K : Type} [LinearOrder K]

theorem getMeasurementsLoop_conserves (fs : List (PointCloudMsg K))
    (imu_buf : List (ImuMsg K)) (acc : List (Measurement K)) :
    ∃ r, getMeasurementsLoop fs imu_buf acc = some r ∧
      (r.measurements.map Prod.fst).flatten ++ r.imu_buf =
        (acc.map Prod.fst).flatten ++ imu_buf := by
  induction fs generalizing imu_buf acc with
  | nil => exact ⟨⟨acc, imu_buf, []⟩, by simp [getMeasurementsLoop], rfl⟩
  | cons f fs ih =>
    cases imu_buf with
    | nil => exact ⟨⟨acc, [], f :: fs⟩, by simp [getMeasurementsLoop], rfl⟩
    | cons i is =>
      by_cases h1 : ((i :: is).getLast (List.cons_ne_nil i is)).stamp > f.stamp
      · by_cases h2 : i.stamp < f.stamp
        · obtain ⟨r, he, hc⟩ :=
            ih ((i :: is).dropWhile (fun m => decide (m.stamp ≤ f.stamp)))
              (acc ++ [((i :: is).takeWhile (fun m => decide (m.stamp ≤ f.stamp)), f)])
          refine ⟨r, by rw [getMeasurementsLoop_pair f fs i is acc h1 h2, he], ?_⟩
          rw [hc]
          simp only [List.map_append, List.map_cons, List.map_nil, List.flatten_append,
            List.flatten_cons, List.flatten_nil, List.append_nil, List.append_assoc,
            List.takeWhile_append_dropWhile]
        · obtain ⟨r, he, hc⟩ := ih (i :: is) acc
          exact ⟨r, by rw [getMeasurementsLoop_throw f fs i is acc h1 h2, he], hc⟩
      · exact ⟨_, getMeasurementsLoop_wait f fs i is acc h1, rfl⟩

/-- C20: `getMeasurements` always returns, and the IMU lists of the returned tuples,
concatenated in order and followed by the `imu_buf` left after the call, are exactly the
initial `imu_buf`: no sample is lost, duplicated or reordered. -/
theorem getMeasurements_conserves_imu (imu_buf : List (ImuMsg K))
    (feature_buf : List (PointCloudMsg K)) :
    ∃ r, getMeasurements imu_buf feature_buf = some r ∧
      (r.measurements.map Prod.fst).flatten ++ r.imu_buf = imu_buf := by
  obtain ⟨r, he, hc⟩ := getMeasurementsLoop_conserves feature_buf imu_buf []
  exact ⟨r, he, by simpa using hc⟩

end PairerConservation

/-! ## IMU delivery to the estimator -/

section SendImuClaims
variable {K : Type} [LinearOrderedField K]

theorem sendImus_of_nonneg (c : K) (ms : List (ImuMsg K)) (hc : 0 ≤ c)
    (hms : ∀ m ∈ ms, 0 ≤ m.stamp) :
    (sendImus c ms).2.map (fun call => call.dt) =
        List.zipWith (fun t prev => t - prev) (ms.map fun m => m.stamp)
          (c :: ms.map fun m => m.stamp) ∧
      (sendImus c ms).2.map (fun call => call.linear_acceleration) =
        ms.map (fun m => m.linear_acceleration) ∧
      (sendImus c ms).2.map (fun call => call.angular_velocity) =
        ms.map (fun m => m.angular_velocity) ∧
      (sendImus c ms).1 = ((ms.map fun m => m.stamp).getLast?).getD c := by
  induction ms generalizing c with
  | nil => simp [sendImus]
  | cons m rest ih =>
    have hm : 0 ≤ m.stamp := hms m (List.mem_cons_self m rest)
    have hr : ∀ m' ∈ rest, 0 ≤ m'.stamp := fun m' h => hms m' (List.mem_cons_of_mem m h)
    have h1 : (send_imu c m).1 = m.stamp := rfl
    obtain ⟨i1, i2, i3, i4⟩ := ih m.stamp hm hr
    refine ⟨?_, ?_, ?_, ?_⟩
    · simp only [sendImus, List.map_cons, List.zipWith_cons_cons, h1, i1]
      simp [send_imu, not_lt.mpr hc]
    · simp only [sendImus, List.map_cons, h1, i2]
      simp [send_imu]
    · simp only [sendImus, List.map_cons, h1, i3]
      simp [send_imu]
    · simp only [sendImus, h1, i4, List.map_cons]
      cases rest with
      | nil => simp
      | cons m' rest' =>
        rw [List.getLast?_eq_getLast _ (List.cons_ne_nil _ _)]
        rfl

/-- C13: for a sample with stamp `t >= 0`, `send_imu` hands `estimator.processIMU` the
value `dt = 0` when `current_time < 0` and `dt = t - current_time` otherwise, together with
the raw acceleration and angular rate, and leaves `current_time = t`; over a batch of such
samples the later `dt` values are the successive stamp differences, the readings are passed
in order, and `current_time` ends at the last stamp. -/
theorem send_imu_passes_stamp_differences (current_time : K) (m : ImuMsg K)
    (rest : List (ImuMsg K)) (ht : 0 ≤ m.stamp) (hrest : ∀ m' ∈ rest, 0 ≤ m'.stamp) :
    (send_imu current_time m).2.dt =
        (if current_time < 0 then 0 else m.stamp - current_time) ∧
      (send_imu current_time m).2.linear_acceleration = m.linear_acceleration ∧
      (send_imu current_time m).2.angular_velocity = m.angular_velocity ∧
      (send_imu current_time m).1 = m.stamp ∧
      (sendImus current_time (m :: rest)).2.map (fun call => call.dt) =
        (if current_time < 0 then 0 else m.stamp - current_time) ::
          List.zipWith (fun t prev => t - prev) (rest.map fun m' => m'.stamp)
            (m.stamp :: rest.map fun m' => m'.stamp) ∧
      (sendImus current_time (m :: rest)).2.map (fun call => call.linear_acceleration) =
        (m :: rest).map (fun m' => m'.linear_acceleration) ∧
      (sendImus current_time (m :: rest)).2.map (fun call => call.angular_velocity) =
        (m :: rest).map (fun m' => m'.angular_velocity) ∧
      (sendImus current_time (m :: rest)).1 =
        ((rest.map fun m' => m'.stamp).getLast?).getD m.stamp := by
  have hdt : (send_imu current_time m).2.dt =
      (if current_time < 0 then 0 else m.stamp - current_time) := by
    by_cases h : current_time < 0 <;> simp [send_imu, h]
  have hacc : (send_imu current_time m).2.linear_acceleration = m.linear_acceleration := by
    simp [send_imu]
  have hgyr : (send_imu current_time m).2.angular_velocity = m.angular_velocity := by
    simp [send_imu]
  have h1 : (send_imu current_time m).1 = m.stamp := rfl
  obtain ⟨i1, i2, i3, i4⟩ := sendImus_of_nonneg m.stamp rest ht hrest
  refine ⟨hdt, hacc, hgyr, h1, ?_, ?_, ?_, ?_⟩
  · simp only [sendImus, List.map_cons, h1, i1, hdt]
  · simp only [sendImus, List.map_cons, h1, i2, hacc]
  · simp only [sendImus, List.map_cons, h1, i3, hgyr]
  · simp only [sendImus, h1, i4]

/-- C13 at `current_time = -1` (nothing sent yet) and samples at 1, 3/2 and 2. -/
theorem send_imu_passes_stamp_differences_witness :
    (send_imu (-1 : ℚ) (imuAt 1)).2.dt = (if (-1 : ℚ) < 0 then 0 else (imuAt (1 : ℚ)).stamp - -1) ∧
      (send_imu (-1 : ℚ) (imuAt 1)).2.linear_acceleration =
        (imuAt (1 : ℚ)).linear_acceleration ∧
      (send_imu (-1 : ℚ) (imuAt 1)).2.angular_velocity = (imuAt (1 : ℚ)).angular_velocity ∧
      (send_imu (-1 : ℚ) (imuAt 1)).1 = (imuAt (1 : ℚ)).stamp ∧
      (sendImus (-1 : ℚ) (imuAt 1 :: [imuAt (3 / 2), imuAt 2])).2.map (fun call => call.dt) =
        (if (-1 : ℚ) < 0 then 0 else (imuAt (1 : ℚ)).stamp - -1) ::
          List.zipWith (fun t prev => t - prev)
            ([imuAt (3 / 2 : ℚ), imuAt 2].map fun m' => m'.stamp)
            ((imuAt (1 : ℚ)).stamp :: [imuAt (3 / 2 : ℚ), imuAt 2].map fun m' => m'.stamp) ∧
      (sendImus (-1 : ℚ) (imuAt 1 :: [imuAt (3 / 2), imuAt 2])).2.map
          (fun call => call.linear_acceleration) =
        (imuAt (1 : ℚ) :: [imuAt (3 / 2), imuAt 2]).map (fun m' => m'.linear_acceleration) ∧
      (sendImus (-1 : ℚ) (imuAt 1 :: [imuAt (3 / 2), imuAt 2])).2.map
          (fun call => call.angular_velocity) =
        (imuAt (1 : ℚ) :: [imuAt (3 / 2), imuAt 2]).map (fun m' => m'.angular_velocity) ∧
      (sendImus (-1 : ℚ) (imuAt 1 :: [imuAt (3 / 2), imuAt 2])).1 =
        (([imuAt (3 / 2 : ℚ), imuAt 2].map fun m' => m'.stamp).getLast?).getD
          (imuAt (1 : ℚ)).stamp :=
  send_imu_passes_stamp_differences (-1) (imuAt 1) [imuAt (3 / 2), imuAt 2]
    (by simp [imuAt]) (by simp [imuAt]; norm_num)

end SendImuClaims

/-! ## Keyframe image selection -/

section ImageBufClaims
variable {K : Type} [LinearOrder K] {Img : Type}

theorem dropOlderImages_eq_dropWhile (t : K) (image_buf : List (Img × K)) :
    dropOlderImages t image_buf = image_buf.dropWhile (fun im => decide (im.2 < t)) := by
  induction image_buf with
  | nil => rfl
  | cons im rest ih =>
    by_cases h : im.2 < t <;> simp [dropOlderImages, List.dropWhile_cons, h, ih]

theorem pullKeyFrameImage_of_recent (t : K) (image_buf : List (Img × K))
    (h : ∃ im ∈ image_buf, t ≤ im.2) :
    ∃ im rest, pullKeyFrameImage t image_buf = some (im.1, im :: rest) ∧ t ≤ im.2 ∧
      ∃ older, image_buf = older ++ im :: rest ∧ ∀ o ∈ older, o.2 < t := by
  obtain ⟨im0, hmem, hle⟩ := h
  have hne : image_buf.dropWhile (fun im => decide (im.2 < t)) ≠ [] := by
    intro hnil
    have := (List.dropWhile_eq_nil_iff.mp hnil) im0 hmem
    simp only [decide_eq_true_eq] at this
    exact absurd this (not_lt.mpr hle)
  obtain ⟨im, rest, hd⟩ := List.exists_cons_of_ne_nil hne
  refine ⟨im, rest, ?_, ?_, image_buf.takeWhile (fun im => decide (im.2 < t)), ?_, ?_⟩
  · simp [pullKeyFrameImage, dropOlderImages_eq_dropWhile, hd]
  · have h2 := List.head_dropWhile_not (fun im : Img × K => decide (im.2 < t)) image_buf hne
    simp only [hd, List.head_cons, decide_eq_false_iff_not, not_lt] at h2
    exact h2
  · rw [← hd]
    exact (List.takeWhile_append_dropWhile _ _).symm
  · intro o ho
    simpa using List.mem_takeWhile_imp ho

/-- C19 (failing input): with only an image stamped 1/2 queued, or none at all, and the
keyframe slot at time 1, the drop loop leaves `image_buf` empty and the following
`image_buf.front()` reads an empty queue. -/
theorem pullKeyFrameImage_reads_empty_front :
    dropOlderImages (1 : ℚ) [((), (1 / 2 : ℚ))] = [] ∧
    pullKeyFrameImage (1 : ℚ) [((), (1 / 2 : ℚ))] = none ∧
    pullKeyFrameImage (1 : ℚ) ([] : List (Unit × ℚ)) = none := by
  refine ⟨?_, ?_, rfl⟩
  · simp [dropOlderImages]
    norm_num
  · simp [pullKeyFrameImage, dropOlderImages]
    norm_num

end ImageBufClaims

/-! ## Feature identifiers -/

section FeatureIdClaims
variable {K : Type} [LinearOrderedField K] [FloorRing K]

theorem toInt_of_near (e : Int) (x : K) (he0 : 0 ≤ e) (hmax : e ≤ 2147483647)
    (hlo : (e : K) - 1 / 2 ≤ x) (hhi : x < (e : K) + 1 / 2) :
    toInt (x + 1 / 2) = some e := by
  have hnn : (0 : K) ≤ x + 1 / 2 := by
    have : (0 : K) ≤ (e : K) := by exact_mod_cast he0
    linarith
  have hfloor : ⌊x + 1 / 2⌋ = e := by
    rw [Int.floor_eq_iff]
    constructor <;> linarith
  simp only [toInt, hnn, if_true, hfloor]
  rw [if_pos ⟨by omega, hmax⟩]

theorem tdiv_tmod_encoded (n f c : Int) (hn : 1 ≤ n) (hf : 0 ≤ f) (hc0 : 0 ≤ c) (hc : c < n) :
    (f * n + c).tdiv n = f ∧ (f * n + c).tmod n = c := by
  have hnn : 0 ≤ f * n + c := by positivity
  have hn0 : (0 : Int) ≤ n := by omega
  rw [Int.tdiv_eq_ediv hnn hn0, Int.tmod_eq_emod hnn hn0]
  constructor
  · rw [Int.add_comm, Int.mul_comm, Int.add_mul_ediv_left _ _ (by omega),
      Int.ediv_eq_zero_of_lt hc0 hc]
    simp
  · rw [Int.add_comm, Int.mul_comm, Int.add_mul_emod_self_left, Int.emod_eq_of_lt hc0 hc]

/-- C14 (amended): for `NUM_OF_CAM >= 1`, `feature_id >= 0`, `0 <= camera_id < NUM_OF_CAM`
with `encoded_id = feature_id*NUM_OF_CAM + camera_id` at most `2^31 - 1`, and a channel
value `x` with `encoded_id - 0.5 <= x < encoded_id + 0.5`, the decode returns exactly
`(feature_id, camera_id)`, and a point with `z = 1` is appended, with that `camera_id`, to
the vector stored under that `feature_id`. -/
theorem decodeFeatureId_encoded (NUM_OF_CAM feature_id camera_id : Int) (x : K)
    (p : Vec3 K) (image : Int → List (Int × Vec3 K))
    (hn : 1 ≤ NUM_OF_CAM) (hf : 0 ≤ feature_id) (hc0 : 0 ≤ camera_id)
    (hc : camera_id < NUM_OF_CAM)
    (hmax : feature_id * NUM_OF_CAM + camera_id ≤ 2147483647)
    (hlo : ((feature_id * NUM_OF_CAM + camera_id : Int) : K) - 1 / 2 ≤ x)
    (hhi : x < ((feature_id * NUM_OF_CAM + camera_id : Int) : K) + 1 / 2)
    (hz : p.z = 1) :
    decodeFeatureId NUM_OF_CAM x = some (feature_id, camera_id) ∧
      buildImage NUM_OF_CAM [p] [x] image =
        some (Function.update image feature_id (image feature_id ++ [(camera_id, p)])) := by
  have he0 : 0 ≤ feature_id * NUM_OF_CAM + camera_id := by positivity
  have hdec : decodeFeatureId NUM_OF_CAM x = some (feature_id, camera_id) := by
    have hv := toInt_of_near _ x he0 hmax hlo hhi
    have hdm := tdiv_tmod_encoded NUM_OF_CAM feature_id camera_id hn hf hc0 hc
    simp only [decodeFeatureId, hv]
    rw [if_neg (by omega), hdm.1, hdm.2]
  exact ⟨hdec, by simp [buildImage, hdec, hz]⟩

/-- C14 (amended) with two cameras: value 6.6 decodes to feature 3, camera 1. -/
theorem decodeFeatureId_encoded_witness :
    decodeFeatureId 2 (33 / 5 : ℚ) = some (3, 1) ∧
      buildImage 2 [(⟨1 / 4, 1 / 8, 1⟩ : Vec3 ℚ)] [(33 / 5 : ℚ)] (fun _ => []) =
        some (Function.update (fun _ => []) 3
          ((fun _ => []) 3 ++ [(1, (⟨1 / 4, 1 / 8, 1⟩ : Vec3 ℚ))])) :=
  decodeFeatureId_encoded 2 3 1 (33 / 5) ⟨1 / 4, 1 / 8, 1⟩ (fun _ => [])
    (by decide) (by decide) (by decide) (by decide) (by decide)
    (by norm_num) (by norm_num) rfl

/-- C14 (as stated) fails for identifiers that leave the `int` range: with two cameras,
`feature_id = 2^30` and `camera_id = 0` the encoded value is `2^31`; for the channel
value `2^31` the conversion `int v = value + 0.5` is out of range and no
`(feature_id, camera_id)` is returned. -/
theorem decodeFeatureId_out_of_int_range :
    (1073741824 : Int) * 2 + 0 = 2147483648 ∧
    ((2147483648 : Int) : ℚ) - 1 / 2 ≤ 2147483648 ∧
    (2147483648 : ℚ) < ((2147483648 : Int) : ℚ) + 1 / 2 ∧
    decodeFeatureId 2 (2147483648 : ℚ) = none ∧
    decodeFeatureId 2 (2147483648 : ℚ) ≠ some (1073741824, 0) := by
  have hfloor : ⌊(2147483648 : ℚ) + 1 / 2⌋ = 2147483648 := by
    rw [Int.floor_eq_iff]
    constructor <;> norm_num
  have h : decodeFeatureId 2 (2147483648 : ℚ) = none := by
    have hnn : (0 : ℚ) ≤ 2147483648 + 1 / 2 := by norm_num
    simp only [decodeFeatureId, toInt, hnn, if_true, hfloor]
    rfl
  refine ⟨by norm_num, by norm_num, by norm_num, h, ?_⟩
  rw [h]
  simp

end FeatureIdClaims

/-! ## Loop closure bookkeeping -/

section LoopClosureClaims
variable {K : Type} [LinearOrderedField K]

theorem drainPosegraphBuf_append (earlier : List Int) (index init : Int) :
    drainPosegraphBuf (earlier ++ [index]) init = index := by
  induction earlier generalizing init with
  | nil => rfl
  | cons i rest ih => simpa [drainPosegraphBuf] using ih i

/-- C15: when the head candidate `r` of `retrive_data_vector` has its relative pose ready
and its header equals `Headers[0]`, its index is pushed onto `optimize_posegraph_buf`
if and only if `|relative_yaw| <= 30` and `|relative_t| <= 20` (as `|relative_t|^2 <= 400`);
on acceptance the loop connection is attached and the index pushed once, on rejection
nothing is pushed and `removeLoop` is called on the keyframe. -/
theorem updateLoopInfo_accepts_iff (headers0 : K) (s : LoopState K) (r : RetriveData K)
    (rest : List (RetriveData K)) (hv : s.retrive_data_vector = r :: rest)
    (hp : r.relative_pose = true) (hh : headers0 = r.header) :
    ((updateLoopInfo headers0 s).optimize_posegraph_buf =
          s.optimize_posegraph_buf ++ [r.cur_index] ↔
        (|r.relative_yaw| ≤ 30 ∧ r.relative_t.dot r.relative_t ≤ 400)) ∧
      ((|r.relative_yaw| ≤ 30 ∧ r.relative_t.dot r.relative_t ≤ 400) →
        (updateLoopInfo headers0 s).optimize_posegraph_buf =
            s.optimize_posegraph_buf ++ [r.cur_index] ∧
          (updateLoopInfo headers0 s).keyframe_ops = s.keyframe_ops ++
            [KeyFrameOp.updateLoopConnection r.cur_index r.relative_t r.relative_q
              r.relative_yaw]) ∧
      (¬ (|r.relative_yaw| ≤ 30 ∧ r.relative_t.dot r.relative_t ≤ 400) →
        (updateLoopInfo headers0 s).optimize_posegraph_buf = s.optimize_posegraph_buf ∧
          (updateLoopInfo headers0 s).keyframe_ops =
            s.keyframe_ops ++ [KeyFrameOp.removeLoop r.cur_index]) := by
  by_cases hacc : |r.relative_yaw| ≤ 30 ∧ r.relative_t.dot r.relative_t ≤ 400
  · have hno : ¬ (|r.relative_yaw| > 30 ∨ r.relative_t.dot r.relative_t > 400) := by
      rintro (h | h)
      · exact absurd hacc.1 (not_le.mpr h)
      · exact absurd hacc.2 (not_le.mpr h)
    have hbuf : (updateLoopInfo headers0 s).optimize_posegraph_buf =
        s.optimize_posegraph_buf ++ [r.cur_index] := by
      simp only [updateLoopInfo, hv, hp, hh, if_true, if_neg hno]
    have hops : (updateLoopInfo headers0 s).keyframe_ops = s.keyframe_ops ++
        [KeyFrameOp.updateLoopConnection r.cur_index r.relative_t r.relative_q
          r.relative_yaw] := by
      simp only [updateLoopInfo, hv, hp, hh, if_true, if_neg hno]
    exact ⟨⟨fun _ => hacc, fun _ => hbuf⟩, fun _ => ⟨hbuf, hops⟩, fun h => absurd hacc h⟩
  · have hyes : |r.relative_yaw| > 30 ∨ r.relative_t.dot r.relative_t > 400 := by
      by_contra hcon
      push_neg at hcon
      exact hacc ⟨hcon.1, hcon.2⟩
    have hbuf : (updateLoopInfo headers0 s).optimize_posegraph_buf =
        s.optimize_posegraph_buf := by
      simp only [updateLoopInfo, hv, hp, hh, if_true, if_pos hyes]
    have hops : (updateLoopInfo headers0 s).keyframe_ops =
        s.keyframe_ops ++ [KeyFrameOp.removeLoop r.cur_index] := by
      simp only [updateLoopInfo, hv, hp, hh, if_true, if_pos hyes]
    refine ⟨⟨fun h => ?_, fun h => absurd h hacc⟩, fun h => absurd h hacc, fun _ => ⟨hbuf, hops⟩⟩
    rw [hbuf] at h
    simp at h

/-- C15 at a candidate with `|relative_t| = 2`: with relative yaw 10 degrees it is
accepted (index 7 pushed, loop connection attached), with relative yaw 45 degrees it is
rejected (nothing pushed, loop removed). -/
theorem updateLoopInfo_accepts_iff_witness :
    ((updateLoopInfo 5 (loopStateWith 10)).optimize_posegraph_buf =
        (loopStateWith 10).optimize_posegraph_buf ++ [(loopCandidate 10).cur_index] ∧
      (updateLoopInfo 5 (loopStateWith 10)).keyframe_ops = (loopStateWith 10).keyframe_ops ++
        [KeyFrameOp.updateLoopConnection (loopCandidate 10).cur_index
          (loopCandidate 10).relative_t (loopCandidate 10).relative_q
          (loopCandidate 10).relative_yaw]) ∧
    ((updateLoopInfo 5 (loopStateWith 45)).optimize_posegraph_buf =
        (loopStateWith 45).optimize_posegraph_buf ∧
      (updateLoopInfo 5 (loopStateWith 45)).keyframe_ops =
        (loopStateWith 45).keyframe_ops ++ [KeyFrameOp.removeLoop (loopCandidate 45).cur_index]) :=
  ⟨(updateLoopInfo_accepts_iff 5 (loopStateWith 10) (loopCandidate 10) [] rfl rfl rfl).2.1
      ⟨by simp [loopCandidate, abs_le]; norm_num, by simp [loopCandidate, Vec3.dot]; norm_num⟩,
    (updateLoopInfo_accepts_iff 5 (loopStateWith 45) (loopCandidate 45) [] rfl rfl rfl).2.2
      (by simp [loopCandidate, abs_le]; norm_num)⟩

/-- C16 (amended): the correction `(relocalize_r, relocalize_t)` is written in two places.
The pose-graph round leaves it alone when no index other than -1 was queued and
otherwise sets it to the optimizer's output; the per-frame step of the fusion worker
leaves it alone when `estimator.relocalize` is unset and otherwise copies
`estimator.relocalize_r/t` into it. The loop accept/reject block and `update()` never
change it. -/
theorem relocalize_writers (headers0 : K) (s : LoopState K) (n : NodeState K)
    (WINDOW_SIZE : Nat) (quatOfMat : Mat3 K → Quat K) (est_relocalize_r : Mat3 K)
    (est_relocalize_t : Vec3 K)
    (optimize4DoFLoopPoseGraph : Int → Vec3 K → Mat3 K → Vec3 K × Mat3 K)
    (index : Int) (earlier : List Int) :
    ((updateLoopInfo headers0 s).relocalize_r = s.relocalize_r ∧
      (updateLoopInfo headers0 s).relocalize_t = s.relocalize_t) ∧
    ((update WINDOW_SIZE quatOfMat n).relocalize_r = n.relocalize_r ∧
      (update WINDOW_SIZE quatOfMat n).relocalize_t = n.relocalize_t) ∧
    ((adoptRelocalization false est_relocalize_r est_relocalize_t s).relocalize_r =
        s.relocalize_r ∧
      (adoptRelocalization false est_relocalize_r est_relocalize_t s).relocalize_t =
        s.relocalize_t) ∧
    ((adoptRelocalization true est_relocalize_r est_relocalize_t s).relocalize_r =
        est_relocalize_r ∧
      (adoptRelocalization true est_relocalize_r est_relocalize_t s).relocalize_t =
        est_relocalize_t) ∧
    ((process_pose_graph optimize4DoFLoopPoseGraph
          { s with optimize_posegraph_buf := [] }).relocalize_r = s.relocalize_r ∧
      (process_pose_graph optimize4DoFLoopPoseGraph
          { s with optimize_posegraph_buf := [] }).relocalize_t = s.relocalize_t) ∧
    ((process_pose_graph optimize4DoFLoopPoseGraph
          { s with optimize_posegraph_buf := earlier ++ [index] }).relocalize_r =
        (if index ≠ -1 then (optimize4DoFLoopPoseGraph index 0 Mat3.identity).2
          else s.relocalize_r) ∧
      (process_pose_graph optimize4DoFLoopPoseGraph
          { s with optimize_posegraph_buf := earlier ++ [index] }).relocalize_t =
        (if index ≠ -1 then (optimize4DoFLoopPoseGraph index 0 Mat3.identity).1
          else s.relocalize_t)) := by
  have hloop : (updateLoopInfo headers0 s).relocalize_r = s.relocalize_r ∧
      (updateLoopInfo headers0 s).relocalize_t = s.relocalize_t := by
    unfold updateLoopInfo
    split
    · exact ⟨rfl, rfl⟩
    · split_ifs <;> exact ⟨rfl, rfl⟩
  have hdrain : drainPosegraphBuf (earlier ++ [index]) (-1) = index :=
    drainPosegraphBuf_append earlier index (-1)
  refine ⟨hloop, ⟨rfl, rfl⟩, ⟨rfl, rfl⟩, ⟨rfl, rfl⟩, ⟨rfl, rfl⟩, ?_, ?_⟩
  · simp only [process_pose_graph, hdrain]
    split_ifs <;> rfl
  · simp only [process_pose_graph, hdrain]
    split_ifs <;> rfl

/-- C16 (as stated) fails: with `estimator.relocalize` set and
`estimator.relocalize_t = (1, 0, 0)`, the per-frame step of the fusion worker changes
`relocalize_t` from zero to `(1, 0, 0)` without any pose-graph round. -/
theorem adoptRelocalization_changes_correction :
    (loopStateWith 10).relocalize_t = 0 ∧
    (adoptRelocalization true Mat3.identity ⟨1, 0, 0⟩ (loopStateWith 10)).relocalize_t =
      ⟨1, 0, 0⟩ ∧
    (adoptRelocalization true Mat3.identity ⟨1, 0, 0⟩ (loopStateWith 10)).relocalize_t ≠
      (loopStateWith 10).relocalize_t := by
  refine ⟨rfl, rfl, ?_⟩
  show (⟨1, 0, 0⟩ : Vec3 ℚ) ≠ 0
  intro h
  have := congrArg Vec3.x h
  simp at this

end LoopClosureClaims

section LoopDetectionClaims
variable {K : Type}

/-- C17: for a keyframe whose loop detection succeeds with a candidate `old_index` that
is in the database, a `RetriveData` record is pushed to `retrive_data_buf`, and both
keyframes are marked as looped, if and only if the number of matched normalized
measurements is above `MIN_LOOP_NUM`, `global_frame_cnt - old_index > 35` and
`old_index > 30`; the record carries the keyframe's global index, `relative_pose = false`
and `relocalized = false`; when the guard fails nothing is pushed or marked. -/
theorem processLoopDetection_pushes_iff (MIN_LOOP_NUM : Int) (blank : RetriveData K)
    (d : LoopDetection K) (s : LoopState K) (hsucc : d.loop_succ = true)
    (hfound : d.old_kf_found = true) (hold : d.old_index ≠ -1) :
    ∃ s', processLoopDetection MIN_LOOP_NUM blank d s = some s' ∧
      s'.global_frame_cnt = s.global_frame_cnt + 1 ∧
      (s'.retrive_data_buf ≠ s.retrive_data_buf ↔
        ((d.measurements_old_norm.length : Int) > MIN_LOOP_NUM ∧
          s.global_frame_cnt - d.old_index > 35 ∧ d.old_index > 30)) ∧
      (((d.measurements_old_norm.length : Int) > MIN_LOOP_NUM ∧
          s.global_frame_cnt - d.old_index > 35 ∧ d.old_index > 30) →
        ∃ rec, s'.retrive_data_buf = s.retrive_data_buf ++ [rec] ∧
          rec.cur_index = s.global_frame_cnt ∧ rec.relative_pose = false ∧
          rec.relocalized = false ∧
          s'.keyframe_ops = s.keyframe_ops ++
            [KeyFrameOp.detectLoop s.global_frame_cnt d.old_index,
              KeyFrameOp.markLooped d.old_index, KeyFrameOp.addLoop d.old_index]) ∧
      (¬ ((d.measurements_old_norm.length : Int) > MIN_LOOP_NUM ∧
          s.global_frame_cnt - d.old_index > 35 ∧ d.old_index > 30) →
        s'.retrive_data_buf = s.retrive_data_buf ∧ s'.keyframe_ops = s.keyframe_ops) := by
  by_cases hg : (d.measurements_old_norm.length : Int) > MIN_LOOP_NUM ∧
      s.global_frame_cnt - d.old_index > 35 ∧ d.old_index > 30
  · have hstep : processLoopDetection MIN_LOOP_NUM blank d s =
        some { s with
          retrive_data_buf :=
            s.retrive_data_buf ++ [buildRetriveData blank s.global_frame_cnt d]
          keyframe_ops := s.keyframe_ops ++
            [KeyFrameOp.detectLoop s.global_frame_cnt d.old_index,
              KeyFrameOp.markLooped d.old_index, KeyFrameOp.addLoop d.old_index]
          global_frame_cnt := s.global_frame_cnt + 1 } := by
      simp [processLoopDetection, hsucc, hfound, hold, hg]
    refine ⟨_, hstep, rfl, ⟨fun _ => hg, fun _ => ?_⟩,
      fun _ => ⟨buildRetriveData blank s.global_frame_cnt d, rfl, rfl, rfl, rfl, rfl⟩,
      fun h => absurd hg h⟩
    simp
  · have hstep : processLoopDetection MIN_LOOP_NUM blank d s =
        some { s with global_frame_cnt := s.global_frame_cnt + 1 } := by
      simp [processLoopDetection, hsucc, hfound, hold, hg]
    exact ⟨_, hstep, rfl, ⟨fun h => absurd rfl h, fun h => absurd h hg⟩,
      fun h => absurd h hg, fun _ => ⟨rfl, rfl⟩⟩

/-- C17 at keyframe 100 with candidate 40 and 30 matched measurements against
`MIN_LOOP_NUM = 25`: the record is pushed. -/
theorem processLoopDetection_pushes_iff_witness :
    ∃ s', processLoopDetection 25 (loopCandidate 0) (detectionOf 30) (loopStateWith 10) =
        some s' ∧
      s'.global_frame_cnt = (loopStateWith 10).global_frame_cnt + 1 ∧
      (s'.retrive_data_buf ≠ (loopStateWith 10).retrive_data_buf ↔
        (((detectionOf 30).measurements_old_norm.length : Int) > 25 ∧
          (loopStateWith 10).global_frame_cnt - (detectionOf 30).old_index > 35 ∧
          (detectionOf 30).old_index > 30)) ∧
      ((((detectionOf 30).measurements_old_norm.length : Int) > 25 ∧
          (loopStateWith 10).global_frame_cnt - (detectionOf 30).old_index > 35 ∧
          (detectionOf 30).old_index > 30) →
        ∃ rec, s'.retrive_data_buf = (loopStateWith 10).retrive_data_buf ++ [rec] ∧
          rec.cur_index = (loopStateWith 10).global_frame_cnt ∧ rec.relative_pose = false ∧
          rec.relocalized = false ∧
          s'.keyframe_ops = (loopStateWith 10).keyframe_ops ++
            [KeyFrameOp.detectLoop (loopStateWith 10).global_frame_cnt
                (detectionOf 30).old_index,
              KeyFrameOp.markLooped (detectionOf 30).old_index,
              KeyFrameOp.addLoop (detectionOf 30).old_index]) ∧
      (¬ (((detectionOf 30).measurements_old_norm.length : Int) > 25 ∧
          (loopStateWith 10).global_frame_cnt - (detectionOf 30).old_index > 35 ∧
          (detectionOf 30).old_index > 30) →
        s'.retrive_data_buf = (loopStateWith 10).retrive_data_buf ∧
          s'.keyframe_ops = (loopStateWith 10).keyframe_ops) :=
  processLoopDetection_pushes_iff 25 (loopCandidate 0) (detectionOf 30) (loopStateWith 10)
    rfl rfl (by decide)

end LoopDetectionClaims

/-! ## Lock order -/

section LockOrder

theorem replayLocks_append (held : List Mutex) (t1 t2 : List LockEvent) :
    replayLocks held (t1 ++ t2) =
      (replayLocks held t1).bind (fun held1 => replayLocks held1 t2) := by
  induction t1 generalizing held with
  | nil => rfl
  | cons e rest ih =>
    cases e with
    | acquire m =>
      by_cases h : lockAllowed held m = true
      · simp [replayLocks, h, ih]
      · simp [replayLocks, h]
    | release m => simp [replayLocks, ih]

theorem checkLocks_sound {p : Sync} {t : List LockEvent} (hrun : p.Runs t) :
    ∀ held held', checkLocks p held = some held' → replayLocks held t = some held' := by
  induction hrun with
  | skip =>
    intro held held' h
    simpa [checkLocks, replayLocks] using h
  | lock m =>
    intro held held' h
    by_cases ha : lockAllowed held m = true
    · simpa [checkLocks, replayLocks, ha] using h
    · simp [checkLocks, ha] at h
  | unlock m =>
    intro held held' h
    simpa [checkLocks, replayLocks] using h
  | seq _ _ iha ihb =>
    intro held held' h
    simp only [checkLocks] at h
    split at h
    · exact absurd h (by simp)
    · next held1 h1 =>
      rw [replayLocks_append, iha held held1 h1]
      exact ihb held1 held' h
  | left _ iha =>
    intro held held' h
    simp only [checkLocks] at h
    split at h
    · next held1 held2 h1 h2 =>
      split_ifs at h with heq
      have hh : held1 = held' := Option.some.inj h
      rw [← hh]
      exact iha held held1 h1
    · exact absurd h (by simp)
  | right _ ihb =>
    intro held held' h
    simp only [checkLocks] at h
    split at h
    · next held1 held2 h1 h2 =>
      split_ifs at h with heq
      have hh : held1 = held' := Option.some.inj h
      rw [← hh, heq]
      exact ihb held held2 h2
    · exact absurd h (by simp)
  | done =>
    intro held held' h
    simp only [checkLocks] at h
    split at h
    · split_ifs at h
      simpa [replayLocks] using h
    · exact absurd h (by simp)
  | again _ _ ihb ihl =>
    intro held held' h
    have h0 := h
    simp only [checkLocks] at h
    split at h
    · next held1 h1 =>
      split_ifs at h with heq
      have hh : held = held' := Option.some.inj h
      rw [heq] at h1
      rw [replayLocks_append, ihb held held h1]
      exact ihl held held' h0
    · exact absurd h (by simp)

/-- C18: in every execution of every thread of the node, started with no mutex held,
each acquisition respects the lock order: `m_buf` is never taken while `m_state` is held
(so where both are held `m_buf` came first), nothing is taken while `m_posegraph_buf` or
`m_loop_drift` is held, and `m_keyframedatabase_resample` is never taken while
`m_update_visualization` is held; the execution ends with no mutex held. -/
theorem lock_order_respected (p : Sync) (t : List LockEvent) (hp : p ∈ threadLocks)
    (hrun : p.Runs t) : replayLocks [] t = some [] := by
  apply checkLocks_sound hrun
  simp only [threadLocks, List.mem_cons, List.mem_singleton, List.not_mem_nil, or_false] at hp
  rcases hp with rfl | rfl | rfl | rfl | rfl | rfl <;> rfl

/-- C18 at one round of `imu_callback`: `m_buf` taken and released, then `m_state` taken
and released. -/
theorem lock_order_respected_witness :
    replayLocks []
      ([LockEvent.acquire Mutex.m_buf] ++ ([LockEvent.release Mutex.m_buf] ++
        ([LockEvent.acquire Mutex.m_state] ++ ([LockEvent.release Mutex.m_state] ++ [])))
        ++ []) = some [] :=
  lock_order_respected (Sync.loop imu_callback_locks) _
    (by simp [threadLocks])
    (Sync.Runs.again
      (Sync.Runs.seq (Sync.Runs.lock _) (Sync.Runs.seq (Sync.Runs.unlock _)
        (Sync.Runs.seq (Sync.Runs.lock _) (Sync.Runs.seq (Sync.Runs.unlock _)
          Sync.Runs.skip))))
      Sync.Runs.done)

end LockOrder

/-! ## Integrating a sample twice -/

section PredictTwice
variable {K : Type} [LinearOrderedField K]

theorem Vec3.zero_smul_vec (v : Vec3 K) : (0 : K) • v = 0 := by
  ext <;> simp

theorem Vec3.add_zero_vec (v : Vec3 K) : v + 0 = v := by
  ext <;> simp

theorem predict_same_stamp (g : Vec3 K) (s : PredictorState K) (x : ImuMsg K)
    (ht : s.latest_time = x.stamp) (ha : s.acc_0 = x.linear_acceleration)
    (hg : s.gyr_0 = x.angular_velocity) : predict g s x = s := by
  cases s with
  | mk latest_time tmp_P tmp_Q tmp_V tmp_Ba tmp_Bg acc_0 gyr_0 =>
    simp only at ht ha hg
    subst ht ha hg
    simp only [predict, sub_self, Vec3.zero_smul_vec, Quat.mul_deltaQ_zero, mul_zero,
      Vec3.add_zero_vec]

theorem updateLoop_append (g : Vec3 K) (l : List (ImuMsg K)) (x : ImuMsg K)
    (s : PredictorState K) :
    updateLoop g (l ++ [x]) s = predict g (updateLoop g l s) x := by
  rw [updateLoop_eq_foldl, updateLoop_eq_foldl, List.foldl_append]
  rfl

/-- C21: for every predictor state `s` (unit orientation or not) and every IMU sample `x`,
`predict` applied twice with `x` gives the same state as applying it once (the second
step has `dt = 0`), in particular the same `tmp_P`, `tmp_Q`, `tmp_V`, `latest_time`,
`acc_0` and `gyr_0`. So when `update()` replays `x` from `imu_buf` between the two halves
of `imu_callback`, the callback's own `predict(x)` changes nothing, and the predictor ends
in the same state as when `update()` runs after the whole callback. -/
theorem predict_twice_same_sample (g : Vec3 K) (s : PredictorState K) (x : ImuMsg K)
    (WINDOW_SIZE : Nat) (quatOfMat : Mat3 K → Quat K) (n : NodeState K) :
    predict g (predict g s x) x = predict g s x ∧
    ((predict g (predict g s x) x).tmp_P = (predict g s x).tmp_P ∧
      (predict g (predict g s x) x).tmp_Q = (predict g s x).tmp_Q ∧
      (predict g (predict g s x) x).tmp_V = (predict g s x).tmp_V ∧
      (predict g (predict g s x) x).latest_time = (predict g s x).latest_time ∧
      (predict g (predict g s x) x).acc_0 = (predict g s x).acc_0 ∧
      (predict g (predict g s x) x).gyr_0 = (predict g s x).gyr_0) ∧
    (predict g s x).latest_time - x.stamp = 0 ∧
    (imu_callback_predict (update WINDOW_SIZE quatOfMat (imu_callback_push n x)) x).pred =
      (update WINDOW_SIZE quatOfMat (imu_callback_push n x)).pred ∧
    (imu_callback_predict (update WINDOW_SIZE quatOfMat (imu_callback_push n x)) x).pred =
      (update WINDOW_SIZE quatOfMat (imu_callback n x)).pred := by
  have h2 : predict g (predict g s x) x = predict g s x :=
    predict_same_stamp g (predict g s x) x rfl rfl rfl
  have hup : (update WINDOW_SIZE quatOfMat (imu_callback_push n x)).pred =
      predict n.estimator.g
        (updateLoop n.estimator.g n.imu_buf
          (seed WINDOW_SIZE quatOfMat (imu_callback_push n x))) x := by
    simp only [update, imu_callback_push, updateLoop_append]
  have hcb : (imu_callback_predict (update WINDOW_SIZE quatOfMat (imu_callback_push n x)) x).pred
      = (update WINDOW_SIZE quatOfMat (imu_callback_push n x)).pred := by
    show predict n.estimator.g (update WINDOW_SIZE quatOfMat (imu_callback_push n x)).pred x
      = (update WINDOW_SIZE quatOfMat (imu_callback_push n x)).pred
    rw [hup]
    exact predict_same_stamp _ _ x rfl rfl rfl
  refine ⟨h2, ⟨?_, ?_, ?_, ?_, ?_, ?_⟩, ?_, hcb, ?_⟩
  · rw [h2]
  · rw [h2]
  · rw [h2]
  · rw [h2]
  · rw [h2]
  · rw [h2]
  · show x.stamp - x.stamp = 0
    exact sub_self _
  · rw [hcb]
    rfl

end PredictTwice

end VinsEstimatorNode
